import Mathlib

/-!
# Verification of the scrabble-mobile core rules engine

Shallow embedding of the move validator / scorer / turn state machine
(`src/core/game.ts`), the tile tables (`src/core/tiles.ts`) and the endgame
move-existence scanner (`src/workers/endgameScan.worker.ts`).

Modelling conventions:
* TypeScript `number` board coordinates become `Nat`; every place the source
  computes a possibly-negative coordinate and then rejects it with
  `inBounds`, the embedding guards the subtraction explicitly.
* Tile values and scores are `Int` (end-game scoring can go negative).
* `Record<string, T>` maps (racks, scores) become association lists in
  insertion order; `Map` keyed word tables likewise.
* The source's in-place mutation (`state.racks[p] = ...`) becomes functional
  update; the mutate/undo discipline of the scanner's rack-count array
  becomes plain value passing.
* `async` dictionary callbacks are pure functions here (`String → Bool`),
  matching the engine's view of them as idempotent queries.
* Board-scanning `while` loops that move toward the high edge of the board
  take an explicit fuel argument; callers pass a fuel that is at least the
  number of remaining board cells (at most 15), so the fuel never runs out
  on the 15×15 board.
* `Date.now()` timestamps are modelled as the constant 0 and
  `crypto.randomUUID()` / `Math.random()` shuffles are taken as parameters.
-/

namespace Scrabble

/-- Board edge length (`BOARD_SIZE` in game.ts). -/
def BOARD_SIZE : Nat := 15

/-- `inBounds` from game.ts; the `0 ≤ v` half is implicit in `Nat`.
Sites where the source feeds a possibly-negative value in are guarded at
the call site. -/
def inBounds (v : Nat) : Bool := v < BOARD_SIZE

/-- Supported languages (`Language` in types.ts). -/
inductive Language where
  | en
  | ru
deriving DecidableEq

/-- Premium square kinds (`Premium` in types.ts). -/
inductive Premium where
  | TW
  | DW
  | TL
  | DL
  | CENTER
deriving DecidableEq

/-- A tile (`Tile` in types.ts).  The optional `blank?` flag becomes a
plain `Bool` (absent = `false`). -/
structure Tile where
  id : String
  letter : Char
  value : Int
  blank : Bool := false
deriving DecidableEq

/-- A board cell holds at most one tile; `BoardCell.tile : Tile | null`
collapses to `Option Tile`. The board is a 15×15 row-major grid, indexed
`board[y][x]` as in the source. -/
abbrev Board := List (List (Option Tile))

/-- A requested placement (`Placement` in types.ts). -/
structure Placement where
  x : Nat
  y : Nat
  tile : Tile
deriving DecidableEq

/-- Move history entries (`GameHistoryEntry` in types.ts), timestamps
modelled as 0 and dropped. -/
inductive HistoryEntry where
  | move (moveNumber : Nat) (playerId : String) (scoreDelta : Int)
      (words : List String) (placedTiles : Nat)
  | pass (moveNumber : Nat) (playerId : String)
  | exchange (moveNumber : Nat) (playerId : String) (exchangedTiles : Nat)
deriving DecidableEq

/-- The player id carried by a history entry. -/
def HistoryEntry.playerId : HistoryEntry → String
  | .move _ p _ _ _ => p
  | .pass _ p => p
  | .exchange _ p _ => p

/-- Whether a history entry is a PASS (`e.type === 'PASS'`). -/
def HistoryEntry.isPass : HistoryEntry → Bool
  | .pass _ _ => true
  | _ => false

/-- `lastMove` payload on `GameState`. -/
structure LastMove where
  moveNumber : Nat
  playerId : String
  placed : List (Nat × Nat)
deriving DecidableEq

/-- The single mutable root (`GameState` in types.ts).  Racks and scores are
association lists standing in for `Record<string, ...>`. -/
structure GameState where
  board : Board
  bag : List Tile
  racks : List (String × List Tile)
  scores : List (String × Int)
  currentPlayer : String
  players : List String
  language : Language
  moveNumber : Nat
  lastMove : Option LastMove
  history : List HistoryEntry
  sessionId : String
deriving DecidableEq

/-- Reasons a game can end (`GameEndReason`). -/
inductive GameEndReason where
  | four_passes
  | no_moves_bag_empty
deriving DecidableEq

/-- `GameEndedInfo` payload of a terminating `MoveResult`. -/
structure GameEndedInfo where
  reason : GameEndReason
  finalScores : List (String × Int)
deriving DecidableEq

/-- Result of an attempted action (`MoveResult` in types.ts). -/
structure MoveResult where
  success : Bool
  message : Option String := none
  scoreDelta : Option Int := none
  words : Option (List String) := none
  gameEnded : Option GameEndedInfo := none
deriving DecidableEq

/-- A failed `MoveResult` with the given reason. -/
def failMR (m : String) : MoveResult := { success := false, message := some m }

/-- The external word checker.  The per-word `async` callback is a pure
predicate; the optional `getAllWords` capability is an `Option` whose inner
`Option` models the callback resolving to `null`. -/
structure WordChecker where
  check : String → Bool
  getAllWords : Option (Option (List String)) := none

/-- Association-list read with a default (`record[k] ?? d`). -/
def lookupD {β : Type} (l : List (String × β)) (k : String) (d : β) : β :=
  match l.lookup k with
  | some v => v
  | none => d

/-- Association-list write (`record[k] = v`): replaces the first binding of
`k`, or appends a new one. -/
def setA {β : Type} : List (String × β) → String → β → List (String × β)
  | [], k, v => [(k, v)]
  | (k', v') :: t, k, v =>
      if k' = k then (k, v) :: t else (k', v') :: setA t k v

/-- A player's rack (`state.racks[p] ?? []`). -/
def rackOf (s : GameState) (pid : String) : List Tile :=
  lookupD s.racks pid []

/-- A player's score (`state.scores[p] ?? 0`). -/
def scoreOf (s : GameState) (pid : String) : Int :=
  lookupD s.scores pid 0

/-- Cell read `board[y][x].tile`; out-of-structure reads default to an
empty cell (the source only reads in-bounds coordinates). -/
def cellAt (b : Board) (x y : Nat) : Option Tile :=
  (b.getD y []).getD x none

/-- Cell write `board[y][x].tile = t`. -/
def setCell (b : Board) (x y : Nat) (t : Tile) : Board :=
  b.set y ((b.getD y []).set x (some t))

/-- `createBoard` from game.ts. -/
def createBoard : Board :=
  List.replicate BOARD_SIZE (List.replicate BOARD_SIZE none)

/-- `boardHasAnyTiles` from game.ts. -/
def boardHasAnyTiles (b : Board) : Bool :=
  b.any fun row => row.any fun cell => cell.isSome

/-- Whether some 4-neighbour of `(x, y)` holds a tile.  The source builds
the list `[[x+1,y],[x-1,y],[x,y+1],[x,y-1]]` and filters with `inBounds`;
`x - 1` at `x = 0` would be `-1` and fail `inBounds`, hence the `x ≠ 0`
guards here (used by `touchesExisting`, `computeAnchors` and
`inferOrientation`). -/
def hasNeighbourTile (b : Board) (x y : Nat) : Bool :=
  (inBounds (x + 1) && (cellAt b (x + 1) y).isSome)
  || (decide (x ≠ 0) && (cellAt b (x - 1) y).isSome)
  || (inBounds (y + 1) && (cellAt b x (y + 1)).isSome)
  || (decide (y ≠ 0) && (cellAt b x (y - 1)).isSome)

/-- `touchesExisting` from game.ts. -/
def touchesExisting (b : Board) (pls : List Placement) : Bool :=
  pls.any fun p => hasNeighbourTile b p.x p.y

/-- `drawTiles` from game.ts: pops `count` tiles off the end of the bag;
returns the drawn tiles (in pop order) and the remaining bag. -/
def drawTiles (bag : List Tile) : Nat → List Tile × List Tile
  | 0 => ([], bag)
  | n + 1 =>
      match bag.getLast? with
      | none => ([], bag)
      | some t =>
          let r := drawTiles bag.dropLast n
          (t :: r.1, r.2)

/-- The id-multiset of a rack, as a counting function
(the `counts` record built by `playerHasTiles`). -/
def rackIdCounts (rack : List Tile) : String → Nat :=
  rack.foldl (fun m t => fun k => if k = t.id then m k + 1 else m k)
    (fun _ => 0)

/-- The `tileIds.every` loop of `playerHasTiles`, threading the mutable
counts record. -/
def playerHasTilesGo (counts : String → Nat) : List String → Bool
  | [] => true
  | id :: rest =>
      let available := counts id
      if available = 0 then false
      else playerHasTilesGo
        (fun k => if k = id then available - 1 else counts k) rest

/-- `playerHasTiles` from game.ts: multiset containment of the requested
ids in the rack's ids. -/
def playerHasTiles (rack : List Tile) (tileIds : List String) : Bool :=
  playerHasTilesGo (rackIdCounts rack) tileIds

/-- Remove the first tile with the given id (`findIndex` + `splice`). -/
def removeFirstById : List Tile → String → Option Tile × List Tile
  | [], _ => (none, [])
  | t :: ts, id =>
      if t.id = id then (some t, ts)
      else
        let r := removeFirstById ts id
        (r.1, t :: r.2)

/-- `removeTiles` from game.ts: removes the listed ids one by one, keeping
the removed tiles in encounter order; ids not present are skipped. -/
def removeTiles (rack : List Tile) (tileIds : List String) :
    List Tile × List Tile :=
  tileIds.foldl
    (fun acc id =>
      match removeFirstById acc.2 id with
      | (some t, rest) => (acc.1 ++ [t], rest)
      | (none, _) => acc)
    ([], rack)

/-- `nextPlayer` from game.ts: round-robin successor
(`indexOf` returning −1 maps to index 0, as `(−1 + 1) % n = 0`). -/
def nextPlayer (players : List String) (current : String) : String :=
  let next :=
    match players.findIdx? (· = current) with
    | some i => i + 1
    | none => 0
  players.getD (next % players.length) ""

/-- The history cap of `recordHistory`. -/
def MAX_HISTORY : Nat := 250

/-- `recordHistory` from game.ts: append, then trim from the front past the
cap. -/
def recordHistory (h : List HistoryEntry) (e : HistoryEntry) :
    List HistoryEntry :=
  let h' := h ++ [e]
  if MAX_HISTORY < h'.length then h'.drop (h'.length - MAX_HISTORY) else h'

/-- `history.slice (-n)`: the last `n` entries (all of them when shorter). -/
def lastN {α : Type} (n : Nat) (l : List α) : List α :=
  l.drop (l.length - n)

/-! ## Tile distributions (`src/core/tiles.ts`) -/

/-- A tile spec: letter, count, point value (`TileSpec` in tiles.ts). -/
structure TileSpec where
  letter : Char
  count : Nat
  value : Int
deriving DecidableEq

/-- `ENGLISH_SET` from tiles.ts; `' '` is the blank marker. -/
def ENGLISH_SET : List TileSpec :=
  [⟨'A', 9, 1⟩, ⟨'B', 2, 3⟩, ⟨'C', 2, 3⟩, ⟨'D', 4, 2⟩, ⟨'E', 12, 1⟩,
   ⟨'F', 2, 4⟩, ⟨'G', 3, 2⟩, ⟨'H', 2, 4⟩, ⟨'I', 9, 1⟩, ⟨'J', 1, 8⟩,
   ⟨'K', 1, 5⟩, ⟨'L', 4, 1⟩, ⟨'M', 2, 3⟩, ⟨'N', 6, 1⟩, ⟨'O', 8, 1⟩,
   ⟨'P', 2, 3⟩, ⟨'Q', 1, 10⟩, ⟨'R', 6, 1⟩, ⟨'S', 4, 1⟩, ⟨'T', 6, 1⟩,
   ⟨'U', 4, 1⟩, ⟨'V', 2, 4⟩, ⟨'W', 2, 4⟩, ⟨'X', 1, 8⟩, ⟨'Y', 2, 4⟩,
   ⟨'Z', 1, 10⟩, ⟨' ', 2, 0⟩]

/-- `RUSSIAN_SET` from tiles.ts. -/
def RUSSIAN_SET : List TileSpec :=
  [⟨'А', 8, 1⟩, ⟨'Б', 2, 3⟩, ⟨'В', 4, 1⟩, ⟨'Г', 2, 3⟩, ⟨'Д', 4, 2⟩,
   ⟨'Е', 8, 1⟩, ⟨'Ё', 1, 3⟩, ⟨'Ж', 1, 5⟩, ⟨'З', 2, 5⟩, ⟨'И', 5, 1⟩,
   ⟨'Й', 1, 4⟩, ⟨'К', 4, 2⟩, ⟨'Л', 4, 2⟩, ⟨'М', 3, 2⟩, ⟨'Н', 5, 1⟩,
   ⟨'О', 10, 1⟩, ⟨'П', 4, 2⟩, ⟨'Р', 5, 1⟩, ⟨'С', 5, 1⟩, ⟨'Т', 5, 1⟩,
   ⟨'У', 4, 2⟩, ⟨'Ф', 1, 10⟩, ⟨'Х', 1, 5⟩, ⟨'Ц', 1, 5⟩, ⟨'Ч', 1, 5⟩,
   ⟨'Ш', 1, 8⟩, ⟨'Щ', 1, 10⟩, ⟨'Ъ', 1, 10⟩, ⟨'Ы', 2, 4⟩, ⟨'Ь', 2, 2⟩,
   ⟨'Э', 1, 8⟩, ⟨'Ю', 1, 8⟩, ⟨'Я', 2, 3⟩, ⟨' ', 2, 0⟩]

/-- `specsFor` from tiles.ts. -/
def specsFor : Language → List TileSpec
  | .en => ENGLISH_SET
  | .ru => RUSSIAN_SET

/-- `getInitialBagSize` from tiles.ts. -/
def getInitialBagSize (language : Language) : Nat :=
  (specsFor language).foldl (fun sum spec => sum + spec.count) 0

/-- `buildBag` from tiles.ts, with the `crypto.randomUUID()` id supply and
the final Fisher–Yates `shuffle` taken as parameters (`ids n` is the id of
the `n`-th tile created). -/
def buildBag (language : Language) (ids : Nat → String)
    (shuffle : List Tile → List Tile) : List Tile :=
  let tiles :=
    ((specsFor language).foldl
      (fun (acc : List Tile × Nat) spec =>
        (List.range spec.count).foldl
          (fun acc _ =>
            (acc.1 ++
              [{ id := ids acc.2, letter := spec.letter, value := spec.value,
                 blank := spec.letter = ' ' }],
             acc.2 + 1))
          acc)
      ([], 0)).1
  shuffle tiles

/-! ## Orientation, contiguity and word collection (`src/core/game.ts`) -/

/-- Move orientation (`Orientation` in game.ts). -/
inductive Orientation where
  | row
  | col
deriving DecidableEq

/-- `inferOrientation` from game.ts. -/
def inferOrientation (b : Board) (pls : List Placement) :
    Option Orientation :=
  match pls with
  | [p] =>
      let horizontalNeighbour :=
        (inBounds (p.x + 1) && (cellAt b (p.x + 1) p.y).isSome)
        || (decide (p.x ≠ 0) && (cellAt b (p.x - 1) p.y).isSome)
      let verticalNeighbour :=
        (inBounds (p.y + 1) && (cellAt b p.x (p.y + 1)).isSome)
        || (decide (p.y ≠ 0) && (cellAt b p.x (p.y - 1)).isSome)
      if horizontalNeighbour && !verticalNeighbour then some .row
      else if verticalNeighbour && !horizontalNeighbour then some .col
      else some .row
  | p0 :: rest =>
      let sameRow := (p0 :: rest).all fun p => p.y = p0.y
      let sameCol := (p0 :: rest).all fun p => p.x = p0.x
      if sameRow then some .row
      else if sameCol then some .col
      else none
  | [] => some .row

/-- `isContiguous` from game.ts: every cell in the placement's span is
occupied by an existing tile or a new placement.  The `[]` case is
unreachable (both callers reject empty placement lists first). -/
def isContiguous (b : Board) (pls : List Placement) (o : Orientation) :
    Bool :=
  match pls with
  | [] => true
  | p0 :: _ =>
      let coords := pls.map fun p => match o with | .row => p.x | .col => p.y
      let fixedCoord := match o with | .row => p0.y | .col => p0.x
      let mn := coords.foldl min (coords.headD 0)
      let mx := coords.foldl max 0
      (List.range' mn (mx + 1 - mn)).all fun i =>
        let x := match o with | .row => i | .col => fixedCoord
        let y := match o with | .row => fixedCoord | .col => i
        (cellAt b x y).isSome || pls.any fun p => p.x = x && p.y = y

/-- A scored word cell: coordinate, tile and premium (the element type of
`collectWord`'s result in game.ts). -/
structure ScoredCell where
  x : Nat
  y : Nat
  tile : Tile
  premium : Option Premium
deriving DecidableEq

/-- The premium lookup.  `boardLayout.ts` is not part of the sources, so
the map `premiumMap.get` is a parameter of every scoring function. -/
abbrev PremiumMap := Nat → Nat → Option Premium

/-- The backward half of `collectWord`'s first `while` loop for rows:
walk left from `x` while the previous cell holds a tile, returning the
start column (structural recursion on the decreasing coordinate; the
source stops when `x - 1` fails `inBounds`, i.e. at column 0). -/
def wordStartRow (b : Board) (y : Nat) : Nat → Nat
  | 0 => 0
  | x + 1 => if (cellAt b x y).isSome then wordStartRow b y x else x + 1

/-- Backward walk of `collectWord` for columns. -/
def wordStartCol (b : Board) (x : Nat) : Nat → Nat
  | 0 => 0
  | y + 1 => if (cellAt b x y).isSome then wordStartCol b x y else y + 1

/-- The forward half of `collectWord`: collect cells while in bounds and
occupied, advancing along the orientation.  `fuel = BOARD_SIZE` bounds the
walk; a run can span at most 15 cells, so the fuel never runs out. -/
def collectCellsFwd (b : Board) (prem : PremiumMap) (o : Orientation) :
    Nat → Nat → Nat → List ScoredCell
  | 0, _, _ => []
  | fuel + 1, x, y =>
      if inBounds x && inBounds y then
        match cellAt b x y with
        | some t =>
            ⟨x, y, t, prem x y⟩ ::
              (match o with
               | .row => collectCellsFwd b prem o fuel (x + 1) y
               | .col => collectCellsFwd b prem o fuel x (y + 1))
        | none => []
      else []

/-- `collectWord` from game.ts: the maximal occupied run through the given
placement's cell along `o`. -/
def collectWord (b : Board) (prem : PremiumMap) (p : Placement)
    (o : Orientation) : List ScoredCell :=
  match o with
  | .row => collectCellsFwd b prem .row BOARD_SIZE (wordStartRow b p.y p.x) p.y
  | .col => collectCellsFwd b prem .col BOARD_SIZE p.x (wordStartCol b p.x p.y)

/-- `selectPrimaryWordCells` from game.ts: for a single placement the
longer of the two runs through it, otherwise the run through
`placements[0]` along the move's orientation (`[]` unreachable). -/
def selectPrimaryWordCells (b : Board) (prem : PremiumMap)
    (pls : List Placement) (o : Orientation) : List ScoredCell :=
  match pls with
  | [p] =>
      let rowCells := collectWord b prem p .row
      let colCells := collectWord b prem p .col
      if rowCells.length < colCells.length then colCells else rowCells
  | p0 :: _ => collectWord b prem p0 o
  | [] => []

/-- One formed word with its cells. -/
structure FormedWord where
  word : String
  cells : List ScoredCell
deriving DecidableEq

/-- `addWord` from `collectFormedWords`: insert under the key
`dir:startX,startY` unless that key is already present (the `Map` keyed by
that string, in insertion order). -/
def addFormedWord (acc : List ((Orientation × Nat × Nat) × FormedWord))
    (dir : Orientation) (cells : List ScoredCell) :
    List ((Orientation × Nat × Nat) × FormedWord) :=
  match cells with
  | [] => acc
  | c0 :: _ =>
      let key := (dir, c0.x, c0.y)
      if acc.any fun kv => kv.1 = key then acc
      else
        acc ++
          [(key,
            { word := String.mk (cells.map fun c => c.tile.letter), cells })]

/-- `collectFormedWords` from game.ts: the primary word (stored under the
move's orientation label, even when its cells run the other way), then for
every placement its row and column words of length > 1. -/
def collectFormedWords (b : Board) (prem : PremiumMap)
    (pls : List Placement) (o : Orientation) : List FormedWord :=
  let primary := selectPrimaryWordCells b prem pls o
  let acc := addFormedWord [] o primary
  let acc :=
    pls.foldl
      (fun acc p =>
        let rowCells := collectWord b prem p .row
        let acc :=
          if 1 < rowCells.length then addFormedWord acc .row rowCells else acc
        let colCells := collectWord b prem p .col
        if 1 < colCells.length then addFormedWord acc .col colCells else acc)
      acc
  acc.map fun kv => kv.2

/-- The `cells.forEach` fold of `scoreCells`, threading the running letter
total and word multiplier. -/
def scoreCellsGo (keys : List (Nat × Nat)) :
    List ScoredCell → Int → Int → Int
  | [], total, wordMultiplier => total * wordMultiplier
  | c :: rest, total, wordMultiplier =>
      let isNew := keys.contains (c.x, c.y)
      let letterValue := c.tile.value
      let total :=
        if isNew then
          match c.premium with
          | some .DL => total + letterValue * 2
          | some .TL => total + letterValue * 3
          | _ => total + letterValue
        else total + letterValue
      let wordMultiplier :=
        if isNew then
          let wm :=
            match c.premium with
            | some .DW => wordMultiplier * 2
            | some .CENTER => wordMultiplier * 2
            | _ => wordMultiplier
          match c.premium with
          | some .TW => wm * 3
          | _ => wm
        else wordMultiplier
      scoreCellsGo keys rest total wordMultiplier

/-- `scoreCells` from game.ts: premium-aware score of one word.  `keys` is
the set of coordinates receiving a newly placed tile. -/
def scoreCells (cells : List ScoredCell) (keys : List (Nat × Nat)) : Int :=
  scoreCellsGo keys cells 0 1

/-- `placements.forEach(p => board[p.y][p.x].tile = p.tile)`. -/
def applyPlacements (b : Board) (pls : List Placement) : Board :=
  pls.foldl (fun b p => setCell b p.x p.y p.tile) b

/-- `computeScore` from game.ts: place on a temp board, collect the formed
words, reject on the first dictionary failure (`Invalid word: W`), else sum
the word scores and add the 7-tile bingo bonus. -/
def computeScore (b : Board) (pls : List Placement) (o : Orientation)
    (check : String → Bool) (prem : PremiumMap) :
    Except String (List String × Int) :=
  let tempBoard := applyPlacements b pls
  let placementKeys := pls.map fun p => (p.x, p.y)
  let formedWords := collectFormedWords tempBoard prem pls o
  match formedWords.find? fun w => !check w.word with
  | some w => .error ("Invalid word: " ++ w.word)
  | none =>
      let totalScore :=
        formedWords.foldl (fun acc w => acc + scoreCells w.cells placementKeys) 0
      let totalScore :=
        if placementKeys.dedup.length = 7 then totalScore + 50 else totalScore
      .ok (formedWords.map fun w => w.word, totalScore)

/-! ## Turn state machine (`src/core/game.ts`) -/

/-- `checkSequentialSkips` from game.ts: in a 2-player game the last four
history entries are all PASS and alternate `(p0,p1,p0,p1)` or
`(p1,p0,p1,p0)`. -/
def checkSequentialSkips (s : GameState) : Bool :=
  if s.players.length ≠ 2 then false
  else
    let last := lastN 4 s.history
    if last.length < 4 then false
    else if !(last.all fun e => e.isPass) then false
    else
      let p0 := s.players.getD 0 ""
      let p1 := s.players.getD 1 ""
      let ids := last.map fun e => e.playerId
      ids = [p0, p1, p0, p1] || ids = [p1, p0, p1, p0]

/-- `applyEndGameScoring` from game.ts: subtract each player's remaining
rack value from their score. -/
def applyEndGameScoring (s : GameState) : GameState :=
  { s with
    scores :=
      s.players.foldl
        (fun sc pid =>
          let rack := lookupD s.racks pid []
          let penalty := rack.foldl (fun sum t => sum + t.value) 0
          setA sc pid (lookupD sc pid 0 - penalty))
        s.scores }

/-- `resolveAllWords` from game.ts: `none` when the checker lacks the
capability or it resolves to `null`. -/
def resolveAllWords (wc : WordChecker) : Option (List String) :=
  match wc.getAllWords with
  | none => none
  | some none => none
  | some (some ws) => some ws

/-- An anchor: an empty cell that is a candidate contact point. -/
structure Anchor where
  x : Nat
  y : Nat
deriving DecidableEq

/-- `computeAnchors` (identical in game.ts and the scan worker): the center
on an empty board, otherwise every empty cell with an occupied
4-neighbour.  The row-major scan never revisits a coordinate, so the
`seen` set of the source is redundant and omitted. -/
def computeAnchors (b : Board) : List Anchor :=
  if !boardHasAnyTiles b then [⟨7, 7⟩]
  else
    (List.range BOARD_SIZE).flatMap fun y =>
      (List.range BOARD_SIZE).filterMap fun x =>
        if (cellAt b x y).isSome then none
        else if hasNeighbourTile b x y then some ⟨x, y⟩
        else none

/-- `validateMoveOnState` from game.ts: the same checks as `placeMove` up
to and including scoring, as a pure predicate. -/
def validateMoveOnState (s : GameState) (pid : String)
    (pls : List Placement) (check : String → Bool) (prem : PremiumMap) :
    Bool :=
  if pls.isEmpty then false
  else if !(pls.all fun p => inBounds p.x && inBounds p.y) then false
  else if !playerHasTiles (rackOf s pid) (pls.map fun p => p.tile.id) then
    false
  else if !(pls.all fun p => (cellAt s.board p.x p.y).isNone) then false
  else
    match inferOrientation s.board pls with
    | none => false
    | some o =>
        let boardIsEmpty := !boardHasAnyTiles s.board
        if boardIsEmpty && !(pls.any fun p => p.x = 7 && p.y = 7) then false
        else if !boardIsEmpty && !touchesExisting s.board pls then false
        else if !isContiguous s.board pls o then false
        else
          match computeScore s.board pls o check prem with
          | .ok (words, _) => !words.isEmpty
          | .error _ => false

/-- ASCII whitespace, the characters `trim()` strips in practice here. -/
def isSpaceChar (c : Char) : Bool :=
  c = ' ' || c = '\t' || c = '\n' || c = '\r'

/-- Strip leading whitespace characters. -/
def trimLeading : List Char → List Char
  | [] => []
  | c :: rest => if isSpaceChar c then trimLeading rest else c :: rest

/-- Strip whitespace from both ends. -/
def trimChars (l : List Char) : List Char :=
  (trimLeading (trimLeading l).reverse).reverse

/-- `word.trim().toUpperCase()` (character-list implementation; ASCII
uppercase, which covers every word these developments feed in). -/
def normalizeWord (w : String) : String :=
  String.mk ((trimChars w.data).map Char.toUpper)

/-- The per-letter placement builder inside `hasValidMovesWithWords`: walk
the candidate word's letters from `(x, y)`, matching existing tiles and
consuming rack tiles (exact letter first, then a relabelled blank),
threading the `usedIds` / `usedBlankIds` sets and the gathered placements;
`none` mirrors the `break` + `continue` abort. -/
def buildCandidateGo (b : Board) (rack : List Tile) (o : Orientation) :
    List Char → Nat → Nat → List String → List String → List Placement →
      Bool → Option (List Placement)
  | [], _, _, _, _, pls, placedAny =>
      if placedAny && !pls.isEmpty then some pls else none
  | c :: rest, x, y, usedIds, usedBlankIds, pls, placedAny =>
      let nx := match o with | .row => x + 1 | .col => x
      let ny := match o with | .row => y | .col => y + 1
      match cellAt b x y with
      | some t =>
          if t.letter = c then
            buildCandidateGo b rack o rest nx ny usedIds usedBlankIds pls
              placedAny
          else none
      | none =>
          match (rack.filter fun t => t.letter = c).find?
              (fun t => !usedIds.contains t.id) with
          | some t =>
              buildCandidateGo b rack o rest nx ny (usedIds ++ [t.id])
                usedBlankIds (pls ++ [⟨x, y, t⟩]) true
          | none =>
              match (rack.filter fun t => t.blank).find?
                  (fun t => !usedBlankIds.contains t.id) with
              | some bt =>
                  let chosen : Tile :=
                    { bt with letter := c, value := 0 }
                  buildCandidateGo b rack o rest nx ny
                    (usedIds ++ [chosen.id]) (usedBlankIds ++ [bt.id])
                    (pls ++ [⟨x, y, chosen⟩]) true
              | none => none

/-- One `(anchor, orientation, idx)` candidate of
`hasValidMovesWithWords`: compute the word's start/end, reject
out-of-bounds (the source's negative `startX`/`startY` fail `inBounds`,
mirrored by the `< idx` guards), build the placements and validate. -/
def candidateOk (s : GameState) (pid : String) (word : List Char)
    (anchor : Anchor) (o : Orientation) (idx : Nat) (boardIsEmpty : Bool)
    (check : String → Bool) (prem : PremiumMap) : Bool :=
  let negativeStart : Bool :=
    match o with | .row => decide (anchor.x < idx) | .col => decide (anchor.y < idx)
  if negativeStart then false
  else
    let startX := match o with | .row => anchor.x - idx | .col => anchor.x
    let startY := match o with | .row => anchor.y | .col => anchor.y - idx
    let endX := match o with | .row => startX + word.length - 1 | .col => startX
    let endY := match o with | .row => startY | .col => startY + word.length - 1
    if !(inBounds startX && inBounds startY && inBounds endX && inBounds endY)
    then false
    else
      match buildCandidateGo s.board (rackOf s pid) o word startX startY
          [] [] [] false with
      | none => false
      | some pls =>
          if boardIsEmpty && !(pls.any fun p => p.x = 7 && p.y = 7) then false
          else validateMoveOnState s pid pls check prem

/-- `hasValidMovesWithWords` from game.ts: for every dictionary word, every
anchor, both orientations and every offset of the anchor inside the word,
try to realise the word and validate it with `validateMoveOnState`. -/
def hasValidMovesWithWords (s : GameState) (pid : String)
    (anchors : List Anchor) (boardIsEmpty : Bool) (words : List String)
    (check : String → Bool) (prem : PremiumMap) : Bool :=
  let rack := rackOf s pid
  if rack.isEmpty then false
  else
    words.any fun rawWord =>
      let word := normalizeWord rawWord
      if word.isEmpty then false
      else if BOARD_SIZE < word.length then false
      else
        anchors.any fun anchor =>
          [Orientation.row, Orientation.col].any fun o =>
            (List.range word.length).any fun idx =>
              candidateOk s pid word.toList anchor o idx boardIsEmpty check
                prem

/-- `checkAllPlayersHaveNoValidMoves` from game.ts: `false` without the
full word list (refuse to declare "no moves"), else no player may have a
move. -/
def checkAllPlayersHaveNoValidMoves (s : GameState) (wc : WordChecker)
    (prem : PremiumMap) : Bool :=
  match resolveAllWords wc with
  | none => false
  | some words =>
      let anchors := computeAnchors s.board
      let boardIsEmpty := !boardHasAnyTiles s.board
      !(s.players.any fun pid =>
        hasValidMovesWithWords s pid anchors boardIsEmpty words wc.check prem)

/-- `checkGameEnd` from game.ts (`none` = not ended).  The expensive scan
is gated on `bag.length < initialBag / 2` with JavaScript real division:
`bag * 2 < initialBag` is the exact integer form. -/
def checkGameEnd (s : GameState) (wc : WordChecker) (prem : PremiumMap) :
    Option GameEndReason :=
  if checkSequentialSkips s then some .four_passes
  else
    let initialBag := getInitialBagSize s.language
    if !(s.bag.length * 2 < initialBag) then none
    else if s.bag.length ≠ 0 then none
    else if checkAllPlayersHaveNoValidMoves s wc prem then
      some .no_moves_bag_empty
    else none

/-- `placeMove` from game.ts: validate, score, apply the placements,
refill the rack, advance the turn, record history and run the end-of-game
check. -/
def placeMove (s : GameState) (pid : String) (pls : List Placement)
    (wc : WordChecker) (prem : PremiumMap) : MoveResult × GameState :=
  if s.currentPlayer ≠ pid then (failMR "Not your turn", s)
  else if pls.isEmpty then (failMR "Place at least one tile", s)
  else if !(pls.all fun p => inBounds p.x && inBounds p.y) then
    (failMR "Placement outside board", s)
  else if !playerHasTiles (rackOf s pid) (pls.map fun p => p.tile.id) then
    (failMR "Tile not in rack", s)
  else if !(pls.all fun p => (cellAt s.board p.x p.y).isNone) then
    (failMR "Cell already occupied", s)
  else
    match inferOrientation s.board pls with
    | none => (failMR "Tiles must align in a row or column", s)
    | some orientation =>
        let boardIsEmpty := !boardHasAnyTiles s.board
        if boardIsEmpty && !(pls.any fun p => p.x = 7 && p.y = 7) then
          (failMR "First move must cover center", s)
        else if !boardIsEmpty && !touchesExisting s.board pls then
          (failMR "Move must connect to existing tiles", s)
        else if !isContiguous s.board pls orientation then
          (failMR "Tiles must form a contiguous line", s)
        else
          match computeScore s.board pls orientation wc.check prem with
          | .error msg => ({ success := false, message := some msg }, s)
          | .ok (words, score) =>
              if words.isEmpty then (failMR "No valid word formed", s)
              else
                let board := applyPlacements s.board pls
                let remaining :=
                  (removeTiles (rackOf s pid) (pls.map fun p => p.tile.id)).2
                let tilesNeeded := 7 - remaining.length
                let drawn := drawTiles s.bag tilesNeeded
                let rack := remaining ++ drawn.1
                let s1 : GameState :=
                  { s with
                    board,
                    bag := drawn.2,
                    racks := setA s.racks pid rack,
                    scores := setA s.scores pid (scoreOf s pid + score),
                    moveNumber := s.moveNumber + 1,
                    lastMove := some
                      ⟨s.moveNumber + 1, pid, pls.map fun p => (p.x, p.y)⟩,
                    currentPlayer := nextPlayer s.players pid,
                    history := recordHistory s.history
                      (.move (s.moveNumber + 1) pid score words pls.length) }
                match checkGameEnd s1 wc prem with
                | some reason =>
                    let s2 := applyEndGameScoring s1
                    ({ success := true, scoreDelta := some score,
                       words := some words,
                       gameEnded := some ⟨reason, s2.scores⟩ }, s2)
                | none =>
                    ({ success := true, scoreDelta := some score,
                       words := some words }, s1)

/-- `passTurn` from game.ts. -/
def passTurn (s : GameState) (pid : String) : MoveResult × GameState :=
  if s.currentPlayer ≠ pid then (failMR "Not your turn", s)
  else
    let s1 : GameState :=
      { s with
        currentPlayer := nextPlayer s.players pid,
        moveNumber := s.moveNumber + 1,
        history := recordHistory s.history (.pass (s.moveNumber + 1) pid) }
    if checkSequentialSkips s1 then
      let s2 := applyEndGameScoring s1
      ({ success := true,
         gameEnded := some ⟨.four_passes, s2.scores⟩ }, s2)
    else ({ success := true }, s1)

/-- `exchangeTiles` from game.ts, with the two `shuffleInPlace` calls taken
as parameters `sh1` (before the draw) and `sh2` (after the exchanged tiles
return to the bag). -/
def exchangeTiles (s : GameState) (pid : String) (tileIds : List String)
    (sh1 sh2 : List Tile → List Tile) : MoveResult × GameState :=
  if s.currentPlayer ≠ pid then (failMR "Not your turn", s)
  else if tileIds.isEmpty then (failMR "Choose tiles to exchange", s)
  else if s.bag.length < tileIds.length then
    (failMR "Not enough tiles in bag", s)
  else if !playerHasTiles (rackOf s pid) tileIds then
    (failMR "Tile not in rack", s)
  else
    let r := removeTiles (rackOf s pid) tileIds
    let removed := r.1
    let remaining := r.2
    let drawCount := min removed.length (7 - remaining.length)
    let bag1 := sh1 s.bag
    let drawn := drawTiles bag1 drawCount
    let rack := remaining ++ drawn.1
    let bag2 := sh2 (drawn.2 ++ removed)
    ({ success := true },
     { s with
       bag := bag2,
       racks := setA s.racks pid rack,
       moveNumber := s.moveNumber + 1,
       currentPlayer := nextPlayer s.players pid,
       history := recordHistory s.history
         (.exchange (s.moveNumber + 1) pid removed.length) })

/-! ## Endgame move-existence scanner (`src/workers/endgameScan.worker.ts`) -/

/-- `EN_ALPHABET` from the scan worker. -/
def EN_ALPHABET : List Char := "ABCDEFGHIJKLMNOPQRSTUVWXYZ".data

/-- `RU_ALPHABET` from the scan worker. -/
def RU_ALPHABET : List Char := "АБВГДЕЁЖЗИЙКЛМНОПРСТУФХЦЧШЩЪЫЬЭЮЯ".data

/-- `alphabetFor` from the scan worker (the `ru-strict` dictionary key uses
the same Russian alphabet). -/
def alphabetFor : Language → List Char
  | .en => EN_ALPHABET
  | .ru => RU_ALPHABET

/-- `buildLetterToIndex` as a lookup function: the index of the first
occurrence of `c` in the alphabet (alphabets have no repeated letters, so
this matches the source's last-wins `Map` construction). -/
def letterToIndex (alpha : List Char) (c : Char) : Option Nat :=
  alpha.findIdx? (· = c)

/-- `bitForIndex` from the scan worker (`1n << i`). -/
def bitForIndex (i : Nat) : Nat := 1 <<< i

/-- `allLettersMask` from the scan worker (`(1n << n) - 1n`). -/
def allLettersMask (alphabetLen : Nat) : Nat := (1 <<< alphabetLen) - 1

/-- A trie node (`TrieNode` in the scan worker): sparse children keyed by
alphabet index (the `Map`'s insertion order is preserved) and an
end-of-word flag. -/
inductive TrieNode where
  | node (children : List (Nat × TrieNode)) (isEnd : Bool)

/-- Children list of a trie node. -/
def TrieNode.children : TrieNode → List (Nat × TrieNode)
  | .node ch _ => ch

/-- End-of-word flag of a trie node. -/
def TrieNode.isEnd : TrieNode → Bool
  | .node _ e => e

/-- `newTrieNode()`. -/
def newTrieNode : TrieNode := .node [] false

/-- `node.children.get idx`. -/
def childLookup : List (Nat × TrieNode) → Nat → Option TrieNode
  | [], _ => none
  | (i, t) :: rest, j => if i = j then some t else childLookup rest j

/-- `node.children.set idx t`: update in place or append (JavaScript `Map`
keeps the original insertion position on update). -/
def childSet : List (Nat × TrieNode) → Nat → TrieNode → List (Nat × TrieNode)
  | [], j, t => [(j, t)]
  | (i, t') :: rest, j, t =>
      if i = j then (i, t) :: rest else (i, t') :: childSet rest j t

/-- One word's insertion walk in `buildTrie`.  A `none` entry is a letter
outside the alphabet: the source's `continue outer` abandons the word at
that point, keeping the trie nodes already created for its prefix and
setting no end flag. -/
def trieInsert : TrieNode → List (Option Nat) → TrieNode
  | .node ch _, [] => .node ch true
  | .node ch e, none :: _ => .node ch e
  | .node ch e, some i :: rest =>
      let child := (childLookup ch i).getD newTrieNode
      .node (childSet ch i (trieInsert child rest)) e

/-- `buildTrie` from the scan worker: normalise, skip empty and
longer-than-board words, insert the rest letter by letter. -/
def buildTrie (wordSet : List String) (l2i : Char → Option Nat) : TrieNode :=
  wordSet.foldl
    (fun root raw =>
      let w := normalizeWord raw
      if w.isEmpty then root
      else if BOARD_SIZE < w.length then root
      else trieInsert root (w.data.map l2i))
    newTrieNode

/-- Letters of the occupied run strictly above `(x, y)`, top-down
(the `up` walk of `computeMaskAt`, already reversed). -/
def vertAbove (b : Board) (x : Nat) : Nat → List Char
  | 0 => []
  | y + 1 =>
      match cellAt b x y with
      | some t => vertAbove b x y ++ [t.letter]
      | none => []

/-- Letters of the occupied run strictly below a cell, starting at row `y`
(the `down` walk of `computeMaskAt`); fuel as in `collectCellsFwd`. -/
def vertBelow (b : Board) (x : Nat) : Nat → Nat → List Char
  | 0, _ => []
  | fuel + 1, y =>
      if inBounds y then
        match cellAt b x y with
        | some t => t.letter :: vertBelow b x fuel (y + 1)
        | none => []
      else []

/-- Letters of the occupied run strictly left of `(x, y)`, left-to-right. -/
def horizLeft (b : Board) (y : Nat) : Nat → List Char
  | 0 => []
  | x + 1 =>
      match cellAt b x y with
      | some t => horizLeft b y x ++ [t.letter]
      | none => []

/-- Letters of the occupied run starting at column `x`, rightwards. -/
def horizRight (b : Board) (y : Nat) : Nat → Nat → List Char
  | 0, _ => []
  | fuel + 1, x =>
      if inBounds x then
        match cellAt b x y with
        | some t => t.letter :: horizRight b y fuel (x + 1)
        | none => []
      else []

/-- The perpendicular run before a cell for the given primary orientation
(`primary = row` reads vertically, `primary = col` horizontally). -/
def crossPrefix (b : Board) (x y : Nat) : Orientation → List Char
  | .row => vertAbove b x y
  | .col => horizLeft b y x

/-- The perpendicular run after a cell. -/
def crossSuffix (b : Board) (x y : Nat) : Orientation → List Char
  | .row => vertBelow b x BOARD_SIZE (y + 1)
  | .col => horizRight b y BOARD_SIZE (x + 1)

/-- `computeMaskAt` from `computeCrossMasks`: 0 on occupied cells, the
all-letters mask when no perpendicular neighbour exists, 0 when the cross
word would be shorter than `minLength`, else one bit per alphabet letter
whose cross word is in the word set. -/
def computeMaskAt (b : Board) (alpha : List Char) (ws : List String)
    (minLength x y : Nat) (primary : Orientation) : Nat :=
  if (cellAt b x y).isSome then 0
  else
    let pre := crossPrefix b x y primary
    let suf := crossSuffix b x y primary
    if pre.isEmpty && suf.isEmpty then allLettersMask alpha.length
    else
      let totalLen := pre.length + 1 + suf.length
      if totalLen < minLength then 0
      else
        (List.range alpha.length).foldl
          (fun mask i =>
            let letter := alpha.getD i ' '
            let cross := String.mk (pre ++ [letter] ++ suf)
            if ws.contains cross then mask ||| bitForIndex i else mask)
          0

/-- The two 15×15 mask matrices (`CrossMasks` in the scan worker). -/
structure CrossMasks where
  row : List (List Nat)
  col : List (List Nat)

/-- `computeCrossMasks` from the scan worker: occupied cells keep the
initial 0, empty cells get `computeMaskAt` for each primary orientation. -/
def computeCrossMasks (b : Board) (alpha : List Char) (ws : List String)
    (minLength : Nat) : CrossMasks :=
  { row :=
      (List.range BOARD_SIZE).map fun y =>
        (List.range BOARD_SIZE).map fun x =>
          if (cellAt b x y).isSome then 0
          else computeMaskAt b alpha ws minLength x y .row,
    col :=
      (List.range BOARD_SIZE).map fun y =>
        (List.range BOARD_SIZE).map fun x =>
          if (cellAt b x y).isSome then 0
          else computeMaskAt b alpha ws minLength x y .col }

/-- Read `masks[y][x]`. -/
def maskAtM (m : List (List Nat)) (x y : Nat) : Nat :=
  (m.getD y []).getD x 0

/-- `rackCountsForPlayer` from the scan worker: per-alphabet-index counts
(as a function standing for the `Uint8Array`) and the number of blanks;
blanks and unknown letters are not counted. -/
def rackCountsForPlayer (s : GameState) (pid : String)
    (l2i : Char → Option Nat) : (Nat → Nat) × Nat :=
  (rackOf s pid).foldl
    (fun acc t =>
      if t.blank then (acc.1, acc.2 + 1)
      else
        match l2i t.letter with
        | some idx => (fun j => if j = idx then acc.1 j + 1 else acc.1 j, acc.2)
        | none => acc)
    (fun _ => 0, 0)

/-- The row flavour of `fixedPrefixBeforeAnchor`: the maximal occupied run
immediately left of column `x` in row `y`, as `(startX, letter indices)`;
`none` when a run letter is outside the alphabet. -/
def fixedRunRow (b : Board) (l2i : Char → Option Nat) (y : Nat) :
    Nat → Option (Nat × List Nat)
  | 0 => some (0, [])
  | x + 1 =>
      match cellAt b x y with
      | some t =>
          match l2i t.letter with
          | none => none
          | some idx =>
              match fixedRunRow b l2i y x with
              | none => none
              | some (sx, ls) => some (sx, ls ++ [idx])
      | none => some (x + 1, [])

/-- The column flavour of `fixedPrefixBeforeAnchor`. -/
def fixedRunCol (b : Board) (l2i : Char → Option Nat) (x : Nat) :
    Nat → Option (Nat × List Nat)
  | 0 => some (0, [])
  | y + 1 =>
      match cellAt b x y with
      | some t =>
          match l2i t.letter with
          | none => none
          | some idx =>
              match fixedRunCol b l2i x y with
              | none => none
              | some (sy, ls) => some (sy, ls ++ [idx])
      | none => some (y + 1, [])

/-- `traverseFixedPrefix` from the scan worker. -/
def traverseFixedPrefix : TrieNode → List Nat → Option TrieNode
  | node, [] => some node
  | node, i :: rest =>
      match childLookup node.children i with
      | none => none
      | some next => traverseFixedPrefix next rest

/-- Number of consecutive empty cells at columns `x-1, x-2, …` of row `y`
(the `leftLimit` loop of `hasAnyMoveRow`). -/
def emptyRunLeft (b : Board) (y : Nat) : Nat → Nat
  | 0 => 0
  | x + 1 => if (cellAt b x y).isNone then emptyRunLeft b y x + 1 else 0

/-- Number of consecutive empty cells above row `y` of column `x`. -/
def emptyRunUp (b : Board) (x : Nat) : Nat → Nat
  | 0 => 0
  | y + 1 => if (cellAt b x y).isNone then emptyRunUp b x y + 1 else 0

/-- `extendRight` from `hasAnyMoveRow`: extend the word rightwards from
`x`, matching existing tiles through the trie and placing rack letters on
empty cells under the cross-check mask; accept on an end-of-word node at
the board edge or before an empty cell, once a rack tile was used and the
word is long enough.  The mutate/undo pair on `counts` becomes a locally
updated function.  `fuel ≥ 16` covers the at most 15 remaining columns. -/
def extendRight (b : Board) (l2i : Char → Option Nat)
    (masks : List (List Nat)) (minLength y anchorX : Nat) :
    Nat → Nat → TrieNode → Nat → (Nat → Nat) → Nat → Bool → Bool
  | 0, _, _, _, _, _, _ => false
  | fuel + 1, x, node, wordLen, counts, blanks, usedRack =>
      if BOARD_SIZE ≤ x then
        usedRack && node.isEnd && decide (minLength ≤ wordLen)
      else
        match cellAt b x y with
        | some t =>
            match l2i t.letter with
            | none => false
            | some idx =>
                match childLookup node.children idx with
                | none => false
                | some next =>
                    extendRight b l2i masks minLength y anchorX fuel (x + 1)
                      next (wordLen + 1) counts blanks usedRack
        | none =>
            if decide (x ≠ anchorX) && usedRack && node.isEnd &&
                decide (minLength ≤ wordLen) then true
            else
              let mask := maskAtM masks x y
              node.children.any fun c =>
                mask.testBit c.1 &&
                  (if 0 < counts c.1 then
                    extendRight b l2i masks minLength y anchorX fuel (x + 1)
                      c.2 (wordLen + 1)
                      (fun j => if j = c.1 then counts j - 1 else counts j)
                      blanks true
                  else if 0 < blanks then
                    extendRight b l2i masks minLength y anchorX fuel (x + 1)
                      c.2 (wordLen + 1) counts (blanks - 1) true
                  else false)

/-- `fillLeft` from `hasAnyMoveRow`: place rack letters on the empty run
`[x, endX)` left of the fixed prefix, then traverse the fixed prefix and
hand over to `extendRight` at the anchor. -/
def fillLeft (b : Board) (l2i : Char → Option Nat)
    (masks : List (List Nat)) (minLength y anchorX endX : Nat)
    (fixedAfter : List Nat) :
    Nat → Nat → TrieNode → (Nat → Nat) → Nat → Nat → Bool
  | 0, _, _, _, _, _ => false
  | fuel + 1, x, node, counts, blanks, lenSoFar =>
      if x = endX then
        match traverseFixedPrefix node fixedAfter with
        | none => false
        | some afterFixed =>
            extendRight b l2i masks minLength y anchorX (BOARD_SIZE + 1)
              anchorX afterFixed (lenSoFar + fixedAfter.length) counts blanks
              false
      else
        let mask := maskAtM masks x y
        node.children.any fun c =>
          mask.testBit c.1 &&
            (if 0 < counts c.1 then
              fillLeft b l2i masks minLength y anchorX endX fixedAfter fuel
                (x + 1) c.2
                (fun j => if j = c.1 then counts j - 1 else counts j)
                blanks (lenSoFar + 1)
            else if 0 < blanks then
              fillLeft b l2i masks minLength y anchorX endX fixedAfter fuel
                (x + 1) c.2 counts (blanks - 1) (lenSoFar + 1)
            else false)

/-- `extendDown` from `hasAnyMoveCol` (the column mirror of
`extendRight`). -/
def extendDown (b : Board) (l2i : Char → Option Nat)
    (masks : List (List Nat)) (minLength x anchorY : Nat) :
    Nat → Nat → TrieNode → Nat → (Nat → Nat) → Nat → Bool → Bool
  | 0, _, _, _, _, _, _ => false
  | fuel + 1, y, node, wordLen, counts, blanks, usedRack =>
      if BOARD_SIZE ≤ y then
        usedRack && node.isEnd && decide (minLength ≤ wordLen)
      else
        match cellAt b x y with
        | some t =>
            match l2i t.letter with
            | none => false
            | some idx =>
                match childLookup node.children idx with
                | none => false
                | some next =>
                    extendDown b l2i masks minLength x anchorY fuel (y + 1)
                      next (wordLen + 1) counts blanks usedRack
        | none =>
            if decide (y ≠ anchorY) && usedRack && node.isEnd &&
                decide (minLength ≤ wordLen) then true
            else
              let mask := maskAtM masks x y
              node.children.any fun c =>
                mask.testBit c.1 &&
                  (if 0 < counts c.1 then
                    extendDown b l2i masks minLength x anchorY fuel (y + 1)
                      c.2 (wordLen + 1)
                      (fun j => if j = c.1 then counts j - 1 else counts j)
                      blanks true
                  else if 0 < blanks then
                    extendDown b l2i masks minLength x anchorY fuel (y + 1)
                      c.2 (wordLen + 1) counts (blanks - 1) true
                  else false)

/-- `fillUp` from `hasAnyMoveCol` (the column mirror of `fillLeft`). -/
def fillUp (b : Board) (l2i : Char → Option Nat)
    (masks : List (List Nat)) (minLength x anchorY endY : Nat)
    (fixedAfter : List Nat) :
    Nat → Nat → TrieNode → (Nat → Nat) → Nat → Nat → Bool
  | 0, _, _, _, _, _ => false
  | fuel + 1, y, node, counts, blanks, lenSoFar =>
      if y = endY then
        match traverseFixedPrefix node fixedAfter with
        | none => false
        | some afterFixed =>
            extendDown b l2i masks minLength x anchorY (BOARD_SIZE + 1)
              anchorY afterFixed (lenSoFar + fixedAfter.length) counts blanks
              false
      else
        let mask := maskAtM masks x y
        node.children.any fun c =>
          mask.testBit c.1 &&
            (if 0 < counts c.1 then
              fillUp b l2i masks minLength x anchorY endY fixedAfter fuel
                (y + 1) c.2
                (fun j => if j = c.1 then counts j - 1 else counts j)
                blanks (lenSoFar + 1)
            else if 0 < blanks then
              fillUp b l2i masks minLength x anchorY endY fixedAfter fuel
                (y + 1) c.2 counts (blanks - 1) (lenSoFar + 1)
            else false)

/-- `hasAnyMoveRow` from the scan worker.  (`boardIsEmpty` and
`alphabetLen` are carried for signature fidelity: the source's
empty-board branch is a no-op comment and the length only sizes the
`Uint8Array`.) -/
def hasAnyMoveRow (s : GameState) (pid : String) (anchors : List Anchor)
    (boardIsEmpty : Bool) (root : TrieNode) (l2i : Char → Option Nat)
    (masksRow : List (List Nat)) (alphabetLen minLength : Nat) : Bool :=
  let rack := rackOf s pid
  if rack.isEmpty then false
  else
    let rc := rackCountsForPlayer s pid l2i
    let _ := boardIsEmpty
    let _ := alphabetLen
    anchors.any fun anchor =>
      match fixedRunRow s.board l2i anchor.y anchor.x with
      | none => false
      | some (fixedStartX, fixedLetters) =>
          let leftLimit := emptyRunLeft s.board anchor.y fixedStartX
          (List.range (leftLimit + 1)).any fun usedLeft =>
            let startX := fixedStartX - usedLeft
            if decide (startX ≠ 0) &&
                (cellAt s.board (startX - 1) anchor.y).isSome then false
            else
              fillLeft s.board l2i masksRow minLength anchor.y anchor.x
                fixedStartX fixedLetters (BOARD_SIZE + 1) startX root rc.1
                rc.2 0

/-- `hasAnyMoveCol` from the scan worker. -/
def hasAnyMoveCol (s : GameState) (pid : String) (anchors : List Anchor)
    (boardIsEmpty : Bool) (root : TrieNode) (l2i : Char → Option Nat)
    (masksCol : List (List Nat)) (alphabetLen minLength : Nat) : Bool :=
  let rack := rackOf s pid
  if rack.isEmpty then false
  else
    let rc := rackCountsForPlayer s pid l2i
    let _ := boardIsEmpty
    let _ := alphabetLen
    anchors.any fun anchor =>
      match fixedRunCol s.board l2i anchor.x anchor.y with
      | none => false
      | some (fixedStartY, fixedLetters) =>
          let upLimit := emptyRunUp s.board anchor.x fixedStartY
          (List.range (upLimit + 1)).any fun usedUp =>
            let startY := fixedStartY - usedUp
            if decide (startY ≠ 0) &&
                (cellAt s.board anchor.x (startY - 1)).isSome then false
            else
              fillUp s.board l2i masksCol minLength anchor.x anchor.y
                fixedStartY fixedLetters (BOARD_SIZE + 1) startY root rc.1
                rc.2 0

/-- `hasAnyValidMoveFast` from the scan worker: either orientation yields a
move. -/
def hasAnyValidMoveFast (s : GameState) (pid : String)
    (anchors : List Anchor) (boardIsEmpty : Bool) (root : TrieNode)
    (l2i : Char → Option Nat) (crossMasks : CrossMasks)
    (alphabetLen minLength : Nat) : Bool :=
  hasAnyMoveRow s pid anchors boardIsEmpty root l2i crossMasks.row
      alphabetLen minLength
  || hasAnyMoveCol s pid anchors boardIsEmpty root l2i crossMasks.col
      alphabetLen minLength

/-- Scan worker response reasons (`'dictionary_unavailable' | 'error'`). -/
inductive ScanReason where
  | dictionary_unavailable
  | error
deriving DecidableEq

/-- The `ENDGAME_SCAN_RESPONSE` payload of `runScan`. -/
structure ScanOutcome where
  allStuck : Bool
  reason : Option ScanReason
deriving DecidableEq

/-- `runScan` from the scan worker, with the `getDictionaryWordSet` result
passed in (`none` = dictionary unavailable).  The per-reference trie cache
is semantically transparent and the `catch` branch is unreachable in this
total model, so neither is represented. -/
def runScan (wordSet : Option (List String)) (st : GameState)
    (language : Language) (minLength : Nat) : ScanOutcome :=
  match wordSet with
  | none => { allStuck := false, reason := some .dictionary_unavailable }
  | some ws =>
      let alpha := alphabetFor language
      let l2i := letterToIndex alpha
      let alphabetLen := alpha.length
      let root := buildTrie ws l2i
      let anchors := computeAnchors st.board
      let boardIsEmpty := !boardHasAnyTiles st.board
      let crossMasks := computeCrossMasks st.board alpha ws minLength
      if st.players.any fun pid =>
          hasAnyValidMoveFast st pid anchors boardIsEmpty root l2i crossMasks
            alphabetLen minLength then
        { allStuck := false, reason := none }
      else { allStuck := true, reason := none }

/-! ## Derived quantities used by the stated properties -/

/-- Number of tiles sitting on the board. -/
def boardTileCount (b : Board) : Nat :=
  (b.map fun row => (row.filter fun c => c.isSome).length).sum

/-- `|bag| + |board tiles| + Σ|racks|`, the conserved quantity of the tile
conservation property (racks summed over the player list). -/
def totalTileCount (s : GameState) : Nat :=
  s.bag.length + boardTileCount s.board
    + (s.players.map fun p => (rackOf s p).length).sum

/-- The summed point value of a player's remaining rack (the per-player
penalty of `applyEndGameScoring`). -/
def rackValue (s : GameState) (pid : String) : Int :=
  (rackOf s pid).foldl (fun sum t => sum + t.value) 0

/-- The word checker the engine uses in practice
(`dictionaryService.hasWord`): membership in the normalised word set,
with words shorter than the configured minimum length rejected. -/
def setChecker (ws : List String) (minLength : Nat) : String → Bool :=
  fun w => ws.contains w && decide (minLength ≤ w.length)

/-! ## Concrete fixtures -/

/-- A premium map with no premium squares (scoring positions are
irrelevant to every acceptance question below). -/
def noPremiums : PremiumMap := fun _ _ => none

/-- Fixture tiles. -/
def tTileT : Tile := ⟨"t1", 'T', 1, false⟩

/-- O tile on the fixture board. -/
def tTileO : Tile := ⟨"o1", 'O', 1, false⟩

/-- P tile on the fixture board. -/
def tTileP : Tile := ⟨"p1", 'P', 3, false⟩

/-- Q tile on the fixture board. -/
def tTileQ : Tile := ⟨"q1", 'Q', 10, false⟩

/-- The scanner/validator divergence board: Q at (8,7), O at (7,8),
P at (7,9). -/
def divBoard : Board :=
  setCell (setCell (setCell createBoard 8 7 tTileQ) 7 8 tTileO) 7 9 tTileP

/-- The divergence state: one player holding a single T tile. -/
def divState : GameState :=
  { board := divBoard, bag := [], racks := [("P1", [tTileT])],
    scores := [("P1", 0)], currentPlayer := "P1", players := ["P1"],
    language := .en, moveNumber := 2, lastMove := none, history := [],
    sessionId := "s" }

/-- The divergence dictionary: just TOP (with the default minimum word
length 2). -/
def divCheck : String → Bool := setChecker ["TOP"] 2

/-- The single-tile move placing the rack's T on (7,7) of `divBoard`,
forming vertical TOP and horizontal TQ. -/
def divPlacement : List Placement := [⟨7, 7, tTileT⟩]

/-- `lookupD` on the empty association list yields the default. -/
theorem lookupD_nil {β : Type} (k2 : String) (d : β) :
    lookupD ([] : List (String × β)) k2 d = d := rfl

/-- `lookupD` on a cons cell. -/
theorem lookupD_cons {β : Type} (k0 : String) (v0 : β)
    (t : List (String × β)) (k2 : String) (d : β) :
    lookupD ((k0, v0) :: t) k2 d
      = if k2 = k0 then v0 else lookupD t k2 d := by
  by_cases h : k2 = k0
  · subst h; simp [lookupD, List.lookup]
  · have hb : (k2 == k0) = false := beq_eq_false_iff_ne.mpr h
    simp [lookupD, List.lookup, hb, h]

/-- Reading back an association-list write: `setA` behaves like a map
update. -/
theorem lookupD_setA {β : Type} (l : List (String × β)) (k k2 : String)
    (v d : β) :
    lookupD (setA l k v) k2 d = if k2 = k then v else lookupD l k2 d := by
  induction l with
  | nil =>
      show lookupD [(k, v)] k2 d = _
      rw [lookupD_cons, lookupD_nil]
  | cons kv t ih =>
      obtain ⟨k0, v0⟩ := kv
      by_cases h0 : k0 = k
      · subst h0
        simp only [setA, eq_self_iff_true, ite_true]
        simp only [lookupD_cons]
        by_cases h : k2 = k0 <;> simp [h]
      · simp only [setA, if_neg h0]
        rw [lookupD_cons, ih, lookupD_cons]
        by_cases h : k2 = k0 <;> by_cases h2 : k2 = k <;> simp_all

/-! ## Claim theorems -/

/-- C1: on `divState` the engine-side validation accepts placing the rack's
T at (7,7) — `collectFormedWords` files the primary word (the vertical
TOP) under the key `row:7,7`, which collides with and silently drops the
horizontal cross word TQ, so TQ is never dictionary-checked and TOP is
listed twice — while the worker scanner correctly finds no move (its
cross-check mask at (7,7) blocks T because TQ is not a word).  Hence
`hasAnyValidMoveFast` returns false although a `validateMoveOnState`-
accepted placement from the rack exists, the exhaustive
`hasValidMovesWithWords` finds that placement, and `runScan` wrongly
reports all players stuck. -/
theorem scanner_validator_divergence :
    validateMoveOnState divState "P1" divPlacement divCheck noPremiums
        = true
    ∧ (collectFormedWords (applyPlacements divState.board divPlacement)
        noPremiums divPlacement .row).map (fun w => w.word) = ["TOP", "TOP"]
    ∧ hasValidMovesWithWords divState "P1" (computeAnchors divState.board)
        false ["TOP"] divCheck noPremiums = true
    ∧ hasAnyValidMoveFast divState "P1" (computeAnchors divState.board)
        false (buildTrie ["TOP"] (letterToIndex EN_ALPHABET))
        (letterToIndex EN_ALPHABET)
        (computeCrossMasks divState.board EN_ALPHABET ["TOP"] 2) 26 2
        = false
    ∧ runScan (some ["TOP"]) divState .en 2
        = { allStuck := true, reason := none } := by
  decide

/-- A tile on the conservation fixture board. -/
def tTileA : Tile := ⟨"a1", 'A', 1, false⟩

/-- Second tile on the conservation fixture board. -/
def tTileTb : Tile := ⟨"t2", 'T', 1, false⟩

/-- Rack tile C of the conservation fixture. -/
def tTileC : Tile := ⟨"c1", 'C', 3, false⟩

/-- Rack tile R of the conservation fixture. -/
def tTileR : Tile := ⟨"r1", 'R', 1, false⟩

/-- First bag tile of the conservation fixture. -/
def bagTile1 : Tile := ⟨"e1", 'E', 1, false⟩

/-- Second bag tile of the conservation fixture. -/
def bagTile2 : Tile := ⟨"e2", 'E', 1, false⟩

/-- Conservation fixture board: A at (8,7), T at (9,7). -/
def dupBoard : Board :=
  setCell (setCell createBoard 8 7 tTileA) 9 7 tTileTb

/-- Conservation fixture state: rack `[C, R]`, two bag tiles. -/
def dupState : GameState :=
  { board := dupBoard, bag := [bagTile1, bagTile2],
    racks := [("P1", [tTileC, tTileR])], scores := [("P1", 4)],
    currentPlayer := "P1", players := ["P1"], language := .en,
    moveNumber := 1, lastMove := none, history := [], sessionId := "s" }

/-- Word checker of the conservation fixture (no full-word-set
capability). -/
def wcRAT : WordChecker := ⟨setChecker ["RAT", "AT"] 2, none⟩

/-- Two placements of distinct rack tiles on the *same* cell (7,7). -/
def dupPlacements : List Placement := [⟨7, 7, tTileC⟩, ⟨7, 7, tTileR⟩]

/-- C3: `placeMove` accepts a move whose two placements target the same
cell (7,7) — every validation step checks each placement against the
pre-move board, so duplicated coordinates slip through — and the second
tile overwrites the first, so one tile vanishes: the total
`|bag| + |board| + Σ|racks|` drops by one, violating tile conservation. -/
theorem duplicate_coordinate_placement_loses_a_tile :
    (placeMove dupState "P1" dupPlacements wcRAT noPremiums).1.success = true
    ∧ totalTileCount (placeMove dupState "P1" dupPlacements wcRAT
        noPremiums).2 + 1 = totalTileCount dupState := by
  decide

/-- C9: without the full word list (`getAllWords` missing or resolving to
`null`) the engine refuses to declare "no moves": the all-players scan
returns `false`, `checkGameEnd` never returns `no_moves_bag_empty`, and
the scan worker answers `allStuck = false` with reason
`dictionary_unavailable`. -/
theorem dictionary_unavailable_never_ends_game (s : GameState)
    (wc : WordChecker) (prem : PremiumMap) (language : Language)
    (minLength : Nat) (h : resolveAllWords wc = none) :
    checkAllPlayersHaveNoValidMoves s wc prem = false
    ∧ checkGameEnd s wc prem ≠ some .no_moves_bag_empty
    ∧ runScan none s language minLength
        = { allStuck := false, reason := some .dictionary_unavailable } := by
  have h1 : checkAllPlayersHaveNoValidMoves s wc prem = false := by
    simp [checkAllPlayersHaveNoValidMoves, h]
  refine ⟨h1, ?_, rfl⟩
  simp only [checkGameEnd, h1]
  split
  · simp
  · split
    · simp
    · split
      · simp
      · simp

/-- Witness for C9 at a concrete checker with no `getAllWords`. -/
theorem dictionary_unavailable_never_ends_game_witness :
    checkAllPlayersHaveNoValidMoves divState wcRAT noPremiums = false
    ∧ checkGameEnd divState wcRAT noPremiums ≠ some .no_moves_bag_empty
    ∧ runScan none divState .en 2
        = { allStuck := false, reason := some .dictionary_unavailable } :=
  dictionary_unavailable_never_ends_game divState wcRAT noPremiums .en 2
    (by decide)

/-- The letter contribution the spec assigns to one cell of a word: a
newly placed tile contributes its face value doubled / tripled on a
DL / TL square, an existing tile only its face value. -/
def specLetterContribution (c : ScoredCell) (isNew : Bool) : Int :=
  if isNew then
    match c.premium with
    | some .DL => c.tile.value * 2
    | some .TL => c.tile.value * 3
    | _ => c.tile.value
  else c.tile.value

/-- The word-multiplier factor the spec assigns to one cell: ×2 for
DW/CENTER and ×3 for TW, but only on cells receiving a newly placed
tile. -/
def specWordMultiplier (c : ScoredCell) (isNew : Bool) : Int :=
  if isNew then
    match c.premium with
    | some .DW => 2
    | some .CENTER => 2
    | some .TW => 3
    | _ => 1
  else 1

/-- Closed form of the `scoreCellsGo` fold. -/
theorem scoreCellsGo_closed (keys : List (Nat × Nat))
    (cells : List ScoredCell) : ∀ t w : Int,
    scoreCellsGo keys cells t w
      = (t + (cells.map fun c =>
          specLetterContribution c (keys.contains (c.x, c.y))).sum)
        * (w * (cells.map fun c =>
            specWordMultiplier c (keys.contains (c.x, c.y))).prod) := by
  induction cells with
  | nil => intro t w; simp [scoreCellsGo]
  | cons c rest ih =>
      intro t w
      rw [scoreCellsGo, ih]
      simp only [List.map_cons, List.sum_cons, List.prod_cons]
      cases hn : keys.contains (c.x, c.y) <;>
        rcases hp : c.premium with _ | pr <;>
        [skip; skip; skip; cases pr] <;>
        simp only [specLetterContribution, specWordMultiplier, hn, hp,
          if_true, if_false, Bool.false_eq_true, ite_true, ite_false] <;>
        ring

/-- C6: `scoreCells` equals the sum of per-cell letter contributions times
the product of per-cell word multipliers, where a newly placed tile on a
DL cell contributes exactly twice its face value (TL thrice), an existing
tile contributes only its face value with no multiplier re-applied, and
word multipliers (DW/TW/CENTER) arise only from cells receiving a newly
placed tile — in every word (cell list) it participates in. -/
theorem scoreCells_premium_characterization (cells : List ScoredCell)
    (keys : List (Nat × Nat)) :
    scoreCells cells keys
      = (cells.map fun c =>
          specLetterContribution c (keys.contains (c.x, c.y))).sum
        * (cells.map fun c =>
            specWordMultiplier c (keys.contains (c.x, c.y))).prod := by
  have h := scoreCellsGo_closed keys cells 0 1
  simpa [scoreCells] using h

/-- An empty board has no tile on any cell. -/
theorem cellAt_of_no_tiles (b : Board) (hb : boardHasAnyTiles b = false)
    (x y : Nat) : cellAt b x y = none := by
  have hrow : ∀ row ∈ b, ∀ c ∈ row, c = none := by
    simpa only [boardHasAnyTiles, List.any_eq_false, Bool.not_eq_true,
      Option.not_isSome, Option.isNone_iff_eq_none] using hb
  unfold cellAt
  rcases hy : b[y]? with _ | row
  · simp [List.getD, hy]
  · have hrmem : row ∈ b := List.getElem?_mem hy
    rcases hx : row[x]? with _ | c
    · simp [List.getD, hy, hx]
    · have hcm : c ∈ row := List.getElem?_mem hx
      have hc := hrow row hrmem c hcm
      simp [List.getD, hy, hx, hc]

/-- The counts-threading loop of `playerHasTiles` succeeds exactly when
the requested ids fit under the counts, as multisets. -/
theorem playerHasTilesGo_iff (ids : List String) : ∀ counts : String → Nat,
    playerHasTilesGo counts ids = true ↔ ∀ id, ids.count id ≤ counts id := by
  induction ids with
  | nil =>
      intro counts
      simp [playerHasTilesGo]
  | cons i rest ih =>
      intro counts
      unfold playerHasTilesGo
      by_cases h : counts i = 0
      · rw [if_pos h]
        constructor
        · intro hfalse; exact absurd hfalse (by simp)
        · intro hall
          have h2 := hall i
          rw [List.count_cons_self] at h2
          omega
      · rw [if_neg h, ih]
        constructor
        · intro hall id
          by_cases hii : id = i
          · subst hii
            rw [List.count_cons_self]
            have h2 := hall id
            simp at h2
            omega
          · rw [List.count_cons_of_ne (by simpa using hii)]
            have h2 := hall id
            simpa [hii] using h2
        · intro hall id
          by_cases hii : id = i
          · subst hii
            have h2 := hall id
            rw [List.count_cons_self] at h2
            simp
            omega
          · have h2 := hall id
            rw [List.count_cons_of_ne (by simpa using hii)] at h2
            simpa [hii] using h2

/-- The counts record built by `playerHasTiles` counts ids. -/
theorem rackIdCounts_eq (rack : List Tile) (id : String) :
    rackIdCounts rack id = (rack.map Tile.id).count id := by
  suffices h : ∀ f : String → Nat,
      (rack.foldl (fun m t => fun k => if k = t.id then m k + 1 else m k) f)
        id = f id + (rack.map Tile.id).count id by
    simpa [rackIdCounts] using h (fun _ => 0)
  induction rack with
  | nil => intro f; simp
  | cons t rest ih =>
      intro f
      simp only [List.foldl_cons, List.map_cons]
      rw [ih]
      by_cases h : id = t.id
      · subst h
        rw [List.count_cons_self]
        simp
        try omega
      · rw [List.count_cons_of_ne (by simpa using h)]
        simp [h]

/-- `playerHasTiles` is multiset containment of ids in the rack's ids. -/
theorem playerHasTiles_iff (rack : List Tile) (ids : List String) :
    playerHasTiles rack ids = true ↔
      ∀ id, ids.count id ≤ (rack.map Tile.id).count id := by
  unfold playerHasTiles
  rw [playerHasTilesGo_iff]
  constructor <;> intro h id <;> have h2 := h id <;>
    simpa [rackIdCounts_eq] using h2

/-- An empty-board state whose player P1 holds the single T tile. -/
def centerlessState : GameState :=
  { board := createBoard, bag := [], racks := [("P1", [tTileT])],
    scores := [("P1", 0)], currentPlayer := "P1", players := ["P1"],
    language := .en, moveNumber := 0, lastMove := none, history := [],
    sessionId := "s" }

/-- C5 counterexample: on an empty board a placement set avoiding (7,7)
can be rejected with a *different* message — here "Not your turn" — so
"rejects any placement set that does not include (7,7) with the message
'First move must cover center'" is false as stated (rejection yes,
that message no). -/
theorem first_move_center_message_counterexample :
    boardHasAnyTiles centerlessState.board = false
    ∧ ((placeMove centerlessState "P2" [⟨5, 5, tTileT⟩] wcRAT
        noPremiums).1.success = false)
    ∧ ((placeMove centerlessState "P2" [⟨5, 5, tTileT⟩] wcRAT
        noPremiums).1.message ≠ some "First move must cover center") := by
  decide

/-- C5 (amended): whenever the board holds no tiles and the earlier
validation steps pass — the caller's turn, a nonempty in-bounds placement
set whose tiles are in the rack and which aligns — any placement set not
covering (7,7) is rejected with exactly "First move must cover center"
and the state is unchanged; the hypotheses never mention the move
counter, so any number of preceding passes or exchanges is covered. -/
theorem first_move_center_rejection (s : GameState) (pid : String)
    (pls : List Placement) (wc : WordChecker) (prem : PremiumMap)
    (hcur : s.currentPlayer = pid) (hne : pls ≠ [])
    (hbounds : (pls.all fun p => inBounds p.x && inBounds p.y) = true)
    (hrack : playerHasTiles (rackOf s pid) (pls.map fun p => p.tile.id)
      = true)
    (hempty : boardHasAnyTiles s.board = false)
    (halign : inferOrientation s.board pls ≠ none)
    (hcenter : (pls.any fun p => p.x = 7 && p.y = 7) = false) :
    placeMove s pid pls wc prem
      = (failMR "First move must cover center", s) := by
  obtain ⟨o, ho⟩ := Option.ne_none_iff_exists'.mp halign
  have hcells : (pls.all fun p => (cellAt s.board p.x p.y).isNone)
      = true := by
    rw [List.all_eq_true]
    intro p hp
    rw [cellAt_of_no_tiles s.board hempty]
    rfl
  unfold placeMove
  rw [if_neg (by simp [hcur]), if_neg (by simpa using hne),
    if_neg (by simp [hbounds]), if_neg (by simp [hrack]),
    if_neg (by simp [hcells]), ho]
  simp [hempty, hcenter]

/-- Witness for C5 at a concrete empty-board state and off-center
placement. -/
theorem first_move_center_rejection_witness :
    placeMove centerlessState "P1" [⟨5, 5, tTileT⟩] wcRAT noPremiums
      = (failMR "First move must cover center", centerlessState) :=
  first_move_center_rejection centerlessState "P1" [⟨5, 5, tTileT⟩] wcRAT
    noPremiums rfl (by decide) (by decide) (by decide) (by decide)
    (by decide) (by decide)

/-- `centerlessState` with two tiles in the bag (for the C10 witness). -/
def exchState : GameState :=
  { centerlessState with bag := [bagTile1, bagTile2] }

/-- C10 counterexample: an `exchangeTiles` call listing the rack's only
tile id twice *is* rejected, but with "Not enough tiles in bag" (the bag
check precedes the rack check), not with "Tile not in rack" as the claim
states. -/
theorem duplicate_tile_ids_message_counterexample :
    (["t1", "t1"] : List String).count "t1" = 2
    ∧ ((rackOf centerlessState "P1").map Tile.id).count "t1" = 1
    ∧ ((exchangeTiles centerlessState "P1" ["t1", "t1"] id id).1.success
        = false)
    ∧ ((exchangeTiles centerlessState "P1" ["t1", "t1"] id id).1.message
        ≠ some "Tile not in rack") := by
  decide

/-- C10 (amended): rack membership is checked as a multiset of ids
(`playerHasTiles` iff every id is requested no more often than the rack
holds it), and once the checks that precede the rack check pass — the
caller's turn plus nonempty/in-bounds placements, or nonempty ids and a
big-enough bag — a request using any id more often than the rack holds it
is rejected with "Tile not in rack" and an unchanged state, so one rack
tile can never be placed at two coordinates or exchanged twice. -/
theorem duplicate_tile_ids_rejected (s : GameState) (pid : String)
    (pls : List Placement) (wc : WordChecker) (prem : PremiumMap)
    (tileIds : List String) (sh1 sh2 : List Tile → List Tile) :
    (∀ rack ids, playerHasTiles rack ids = true ↔
        ∀ id, ids.count id ≤ (rack.map Tile.id).count id)
    ∧ (s.currentPlayer = pid → pls ≠ [] →
        (pls.all fun p => inBounds p.x && inBounds p.y) = true →
        (∃ id, ((rackOf s pid).map Tile.id).count id
            < (pls.map fun p => p.tile.id).count id) →
        placeMove s pid pls wc prem = (failMR "Tile not in rack", s))
    ∧ (s.currentPlayer = pid → tileIds ≠ [] →
        tileIds.length ≤ s.bag.length →
        (∃ id, ((rackOf s pid).map Tile.id).count id < tileIds.count id) →
        exchangeTiles s pid tileIds sh1 sh2
          = (failMR "Tile not in rack", s)) := by
  refine ⟨playerHasTiles_iff, ?_, ?_⟩
  · intro hcur hne hbounds hdup
    have hfail : playerHasTiles (rackOf s pid)
        (pls.map fun p => p.tile.id) = false := by
      rcases hdup with ⟨id, hid⟩
      by_contra hcon
      rw [Bool.not_eq_false, playerHasTiles_iff] at hcon
      exact absurd (hcon id) (by omega)
    unfold placeMove
    rw [if_neg (by simp [hcur]), if_neg (by simpa using hne),
      if_neg (by simp [hbounds]), if_pos (by simp [hfail])]
  · intro hcur hne hbag hdup
    have hfail : playerHasTiles (rackOf s pid) tileIds = false := by
      rcases hdup with ⟨id, hid⟩
      by_contra hcon
      rw [Bool.not_eq_false, playerHasTiles_iff] at hcon
      exact absurd (hcon id) (by omega)
    unfold exchangeTiles
    rw [if_neg (by simp [hcur]), if_neg (by simpa using hne),
      if_neg (by omega), if_pos (by simp [hfail])]

/-- Tiles drawn by `drawTiles` come from the bag it was given. -/
theorem drawTiles_fst_mem : ∀ (n : Nat) (bag : List Tile) (t : Tile),
    t ∈ (drawTiles bag n).1 → t ∈ bag := by
  intro n
  induction n with
  | zero => intro bag t ht; simp [drawTiles] at ht
  | succ m ih =>
      intro bag t ht
      rw [drawTiles] at ht
      split at ht
      · simp at ht
      · next t0 heq =>
          simp only [List.mem_cons] at ht
          rcases ht with h | h
          · subst h; exact List.mem_of_getLast?_eq_some heq
          · exact List.dropLast_subset bag (ih bag.dropLast t h)

/-- The `removed` list of a tile exchange. -/
def exchangeRemoved (s : GameState) (pid : String)
    (tileIds : List String) : List Tile :=
  (removeTiles (rackOf s pid) tileIds).1

/-- The `remaining` rack of a tile exchange. -/
def exchangeRemaining (s : GameState) (pid : String)
    (tileIds : List String) : List Tile :=
  (removeTiles (rackOf s pid) tileIds).2

/-- The `drawCount` of a tile exchange (capped by rack capacity). -/
def exchangeDrawCount (s : GameState) (pid : String)
    (tileIds : List String) : Nat :=
  min (exchangeRemoved s pid tileIds).length
    (7 - (exchangeRemaining s pid tileIds).length)

/-- C7: on a successful exchange, the replacement tiles are drawn from
the shuffled bag *before* the exchanged tiles return to it, so (when bag
ids are disjoint from the exchanged ids, as tile ownership guarantees) no
drawn tile carries an exchanged id; the new rack is the remaining rack
plus exactly those drawn tiles, and the final bag is the second shuffle
of the post-draw bag with the exchanged tiles appended. -/
theorem exchange_no_redraw_of_exchanged_tiles (s : GameState)
    (pid : String) (tileIds : List String)
    (sh1 sh2 : List Tile → List Tile)
    (hperm : (sh1 s.bag).Perm s.bag)
    (hfresh : ∀ t ∈ s.bag, t.id ∉ tileIds)
    (hsucc : (exchangeTiles s pid tileIds sh1 sh2).1.success = true) :
    (∀ t ∈ (drawTiles (sh1 s.bag) (exchangeDrawCount s pid tileIds)).1,
      t.id ∉ tileIds)
    ∧ rackOf (exchangeTiles s pid tileIds sh1 sh2).2 pid
        = exchangeRemaining s pid tileIds
          ++ (drawTiles (sh1 s.bag) (exchangeDrawCount s pid tileIds)).1
    ∧ (exchangeTiles s pid tileIds sh1 sh2).2.bag
        = sh2 ((drawTiles (sh1 s.bag)
            (exchangeDrawCount s pid tileIds)).2
          ++ exchangeRemoved s pid tileIds) := by
  have h1 : ¬s.currentPlayer ≠ pid := by
    intro hcon
    simp [exchangeTiles, hcon, failMR] at hsucc
  have h2 : ¬tileIds.isEmpty = true := by
    intro hcon
    simp [exchangeTiles, h1, hcon, failMR] at hsucc
  have h3 : ¬s.bag.length < tileIds.length := by
    intro hcon
    simp [exchangeTiles, h1, h2, hcon, failMR] at hsucc
  have h4 : ¬(!playerHasTiles (rackOf s pid) tileIds) = true := by
    intro hcon
    simp [exchangeTiles, h1, h2, h3, hcon, failMR] at hsucc
  refine ⟨?_, ?_, ?_⟩
  · intro t ht
    have hmem : t ∈ sh1 s.bag :=
      drawTiles_fst_mem _ (sh1 s.bag) t ht
    exact hfresh t (hperm.mem_iff.mp hmem)
  · simp only [exchangeTiles, if_neg h1, if_neg h2, if_neg h3, if_neg h4]
    simp [rackOf, lookupD_setA, exchangeRemaining, exchangeDrawCount,
      exchangeRemoved]
  · simp only [exchangeTiles, if_neg h1, if_neg h2, if_neg h3, if_neg h4]
    simp [exchangeRemoved, exchangeDrawCount, exchangeRemaining]

/-- Witness for C7: exchanging the single T tile on `exchState` with
identity shuffles. -/
theorem exchange_no_redraw_of_exchanged_tiles_witness :
    (∀ t ∈ (drawTiles (id exchState.bag)
        (exchangeDrawCount exchState "P1" ["t1"])).1, t.id ∉ ["t1"])
    ∧ rackOf (exchangeTiles exchState "P1" ["t1"] id id).2 "P1"
        = exchangeRemaining exchState "P1" ["t1"]
          ++ (drawTiles (id exchState.bag)
            (exchangeDrawCount exchState "P1" ["t1"])).1
    ∧ (exchangeTiles exchState "P1" ["t1"] id id).2.bag
        = id ((drawTiles (id exchState.bag)
            (exchangeDrawCount exchState "P1" ["t1"])).2
          ++ exchangeRemoved exchState "P1" ["t1"]) :=
  exchange_no_redraw_of_exchanged_tiles exchState "P1" ["t1"] id id
    (List.Perm.refl _) (by decide) (by decide)

/-- Witness for C10: placing the single T tile at two coordinates, and
exchanging its id twice with a big-enough bag, are both rejected with
"Tile not in rack". -/
theorem duplicate_tile_ids_rejected_witness :
    (placeMove exchState "P1" [⟨7, 7, tTileT⟩, ⟨8, 7, tTileT⟩] wcRAT
        noPremiums = (failMR "Tile not in rack", exchState))
    ∧ (exchangeTiles exchState "P1" ["t1", "t1"] id id
        = (failMR "Tile not in rack", exchState)) :=
  ⟨(duplicate_tile_ids_rejected exchState "P1"
      [⟨7, 7, tTileT⟩, ⟨8, 7, tTileT⟩] wcRAT noPremiums ["t1", "t1"] id
      id).2.1 rfl (by decide) (by decide) ⟨"t1", by decide⟩,
   (duplicate_tile_ids_rejected exchState "P1"
      [⟨7, 7, tTileT⟩, ⟨8, 7, tTileT⟩] wcRAT noPremiums ["t1", "t1"] id
      id).2.2 rfl (by decide) (by decide) ⟨"t1", by decide⟩⟩

/-- Bits of the or-fold that `computeMaskAt` builds: bit `j` is set
exactly when `j` is in range and its predicate holds. -/
theorem testBit_lor_fold (p : Nat → Bool) (n j : Nat) :
    ((List.range n).foldl
      (fun m i => if p i then m ||| bitForIndex i else m) 0).testBit j
    = (decide (j < n) && p j) := by
  induction n with
  | zero => simp
  | succ m ih =>
      rw [List.range_succ, List.foldl_append]
      simp only [List.foldl_cons, List.foldl_nil]
      have hb : (bitForIndex m).testBit j = decide (m = j) := by
        unfold bitForIndex
        rw [Nat.one_shiftLeft, Nat.testBit_two_pow]
      by_cases hp : p m
      · rw [if_pos hp, Nat.testBit_lor, ih, hb]
        rcases lt_trichotomy j m with h | h | h
        · simp [h, Nat.lt_succ_of_lt h, Nat.ne_of_gt h]
        · subst h
          simp [hp, Nat.lt_irrefl]
        · have h1 : ¬j < m := by omega
          have h2 : ¬j < m + 1 := by omega
          have h3 : m ≠ j := by omega
          simp [h1, h2, h3]
      · rw [if_neg hp, ih]
        rcases lt_trichotomy j m with h | h | h
        · simp [h, Nat.lt_succ_of_lt h]
        · subst h
          simp [hp]
        · have h1 : ¬j < m := by omega
          have h2 : ¬j < m + 1 := by omega
          simp [h1, h2]

/-- Select the matrix of a `CrossMasks` pair by primary orientation. -/
def crossMasksFor (cm : CrossMasks) : Orientation → List (List Nat)
  | .row => cm.row
  | .col => cm.col

/-- Each in-bounds `computeCrossMasks` entry is 0 on occupied cells and
`computeMaskAt` on empty ones. -/
theorem crossMasks_entry (b : Board) (alpha : List Char)
    (ws : List String) (minLength x y : Nat) (o : Orientation)
    (hx : x < BOARD_SIZE) (hy : y < BOARD_SIZE) :
    maskAtM (crossMasksFor (computeCrossMasks b alpha ws minLength) o) x y
      = (if (cellAt b x y).isSome then 0
         else computeMaskAt b alpha ws minLength x y o) := by
  cases o <;>
    simp [crossMasksFor, maskAtM, computeCrossMasks,
      List.getD_eq_getElem?_getD, List.getElem?_map,
      List.getElem?_range hx, List.getElem?_range hy]

/-- A tile A at the board center (C8 fixture). -/
def cxTileA : Tile := ⟨"ab1", 'A', 1, false⟩

/-- C8 fixture board: only an A at (7,7). -/
def cxBoardAB : Board := setCell createBoard 7 7 cxTileA

/-- C8 counterexample: with minimum word length 3 and word set {AB}, the
row-orientation mask at the empty cell (7,8) (below the A) is 0, so the
bit of letter B (index 1) is clear although placing B there forms the
dictionary word AB — `computeCrossMasks` zeroes the mask whenever the
cross word would be shorter than `minLength`, which the claim omits. -/
theorem cross_mask_min_length_counterexample :
    ¬(((maskAtM (crossMasksFor
        (computeCrossMasks cxBoardAB EN_ALPHABET ["AB"] 3) .row)
        7 8).testBit 1 = true)
      ↔ String.mk (crossPrefix cxBoardAB 7 8 .row
          ++ [EN_ALPHABET.getD 1 ' '] ++ crossSuffix cxBoardAB 7 8 .row)
          ∈ ["AB"]) := by
  decide

/-- C8 (amended): for every in-bounds empty cell and each orientation,
the cross-check mask is the all-ones mask when the cell has no
perpendicular neighbour on either side, and otherwise has bit `i` set
exactly when the perpendicular word formed with the existing neighbouring
runs is in the dictionary word set *and* is at least the configured
minimum word length long. -/
theorem cross_mask_bit_characterization (b : Board) (alpha : List Char)
    (ws : List String) (minLength x y : Nat) (o : Orientation)
    (hx : x < BOARD_SIZE) (hy : y < BOARD_SIZE)
    (hempty : cellAt b x y = none) :
    (crossPrefix b x y o = [] ∧ crossSuffix b x y o = [] →
      maskAtM (crossMasksFor (computeCrossMasks b alpha ws minLength) o)
          x y
        = allLettersMask alpha.length)
    ∧ (¬(crossPrefix b x y o = [] ∧ crossSuffix b x y o = []) →
        ∀ i, i < alpha.length →
        ((maskAtM (crossMasksFor (computeCrossMasks b alpha ws minLength)
            o) x y).testBit i = true ↔
          (String.mk (crossPrefix b x y o ++ [alpha.getD i ' ']
              ++ crossSuffix b x y o) ∈ ws
            ∧ minLength ≤ (crossPrefix b x y o).length + 1
              + (crossSuffix b x y o).length))) := by
  have hent := crossMasks_entry b alpha ws minLength x y o hx hy
  rw [hempty] at hent
  simp only [Option.isSome_none, Bool.false_eq_true, if_false,
    ite_false] at hent
  constructor
  · rintro ⟨hp, hs⟩
    rw [hent]
    unfold computeMaskAt
    rw [hempty]
    simp [hp, hs]
  · intro hne i hi
    rw [hent]
    unfold computeMaskAt
    rw [hempty]
    have hcond : ((crossPrefix b x y o).isEmpty
        && (crossSuffix b x y o).isEmpty) = false := by
      rcases not_and_or.mp hne with h | h <;>
        simp [List.isEmpty_iff, h]
    simp only [Option.isSome_none, Bool.false_eq_true, if_false,
      ite_false, hcond]
    by_cases hlen : (crossPrefix b x y o).length + 1
        + (crossSuffix b x y o).length < minLength
    · rw [if_pos hlen]
      have hnle : ¬minLength ≤ (crossPrefix b x y o).length + 1
          + (crossSuffix b x y o).length := by omega
      simp [Nat.zero_testBit, hnle]
    · rw [if_neg hlen]
      rw [testBit_lor_fold (fun i2 => ws.contains
        (String.mk (crossPrefix b x y o ++ [alpha.getD i2 ' ']
          ++ crossSuffix b x y o))) alpha.length i]
      have hle : minLength ≤ (crossPrefix b x y o).length + 1
          + (crossSuffix b x y o).length := by omega
      simp [hi, hle, List.contains, List.elem_iff]

/-- Witness for C8: at minimum word length 2 on the A-board, the bit of B
at (7,8) is governed exactly by membership of AB. -/
theorem cross_mask_bit_characterization_witness :
    (maskAtM (crossMasksFor
        (computeCrossMasks cxBoardAB EN_ALPHABET ["AB"] 2) .row)
        7 8).testBit 1 = true ↔
      (String.mk (crossPrefix cxBoardAB 7 8 .row
          ++ [EN_ALPHABET.getD 1 ' '] ++ crossSuffix cxBoardAB 7 8 .row)
          ∈ ["AB"]
        ∧ 2 ≤ (crossPrefix cxBoardAB 7 8 .row).length + 1
          + (crossSuffix cxBoardAB 7 8 .row).length) :=
  (cross_mask_bit_characterization cxBoardAB EN_ALPHABET ["AB"] 2 7 8
      .row (by decide) (by decide) (by decide)).2 (by decide) 1
    (by decide)

/-- C2: whenever `placeMove`, `passTurn` or `exchangeTiles` returns a
result with `success = false` (dictionary rejection during scoring
included), the returned `GameState` — board, bag, racks, scores, current
player, move number, history — is exactly the input state: every check
runs before any mutation. -/
theorem rejected_action_leaves_state_unmodified (s : GameState)
    (pid : String) (pls : List Placement) (wc : WordChecker)
    (prem : PremiumMap) (tileIds : List String)
    (sh1 sh2 : List Tile → List Tile) :
    ((placeMove s pid pls wc prem).1.success = false →
      (placeMove s pid pls wc prem).2 = s)
    ∧ ((passTurn s pid).1.success = false → (passTurn s pid).2 = s)
    ∧ ((exchangeTiles s pid tileIds sh1 sh2).1.success = false →
      (exchangeTiles s pid tileIds sh1 sh2).2 = s) := by
  refine ⟨?_, ?_, ?_⟩
  · cases hE : placeMove s pid pls wc prem with
    | mk r s2 =>
      intro h
      unfold placeMove at hE
      by_cases h1 : s.currentPlayer ≠ pid
      · rw [if_pos h1] at hE
        injection hE with ha hb; subst hb; rfl
      rw [if_neg h1] at hE
      by_cases h2 : pls.isEmpty = true
      · rw [if_pos h2] at hE
        injection hE with ha hb; subst hb; rfl
      rw [if_neg h2] at hE
      by_cases h3 : (!pls.all fun p => inBounds p.x && inBounds p.y) = true
      · rw [if_pos h3] at hE
        injection hE with ha hb; subst hb; rfl
      rw [if_neg h3] at hE
      by_cases h4 : (!playerHasTiles (rackOf s pid)
          (pls.map fun p => p.tile.id)) = true
      · rw [if_pos h4] at hE
        injection hE with ha hb; subst hb; rfl
      rw [if_neg h4] at hE
      by_cases h5 : (!pls.all fun p => (cellAt s.board p.x p.y).isNone)
          = true
      · rw [if_pos h5] at hE
        injection hE with ha hb; subst hb; rfl
      rw [if_neg h5] at hE
      simp only [] at hE
      repeat' split at hE
      all_goals
        (injection hE with ha hb; subst ha; subst hb;
          first | rfl | exact Bool.noConfusion h)
  · cases hE : passTurn s pid with
    | mk r s2 =>
      intro h
      unfold passTurn at hE
      by_cases h1 : s.currentPlayer ≠ pid
      · rw [if_pos h1] at hE
        injection hE with ha hb; subst hb; rfl
      rw [if_neg h1] at hE
      simp only [] at hE
      repeat' split at hE
      all_goals
        (injection hE with ha hb; subst ha; subst hb;
          first | rfl | exact Bool.noConfusion h)
  · cases hE : exchangeTiles s pid tileIds sh1 sh2 with
    | mk r s2 =>
      intro h
      unfold exchangeTiles at hE
      by_cases h1 : s.currentPlayer ≠ pid
      · rw [if_pos h1] at hE
        injection hE with ha hb; subst hb; rfl
      rw [if_neg h1] at hE
      by_cases h2 : tileIds.isEmpty = true
      · rw [if_pos h2] at hE
        injection hE with ha hb; subst hb; rfl
      rw [if_neg h2] at hE
      by_cases h3 : s.bag.length < tileIds.length
      · rw [if_pos h3] at hE
        injection hE with ha hb; subst hb; rfl
      rw [if_neg h3] at hE
      by_cases h4 : (!playerHasTiles (rackOf s pid) tileIds) = true
      · rw [if_pos h4] at hE
        injection hE with ha hb; subst hb; rfl
      rw [if_neg h4] at hE
      simp only [] at hE
      injection hE with ha hb; subst ha; subst hb
      exact Bool.noConfusion h

/-- Appending one entry and trimming (`recordHistory`) leaves the last
four entries equal to the old last three plus the new entry, as soon as
the history already held three. -/
theorem lastN_recordHistory (h : List HistoryEntry)
    (e : HistoryEntry) (hlen : 3 ≤ h.length) :
    lastN 4 (recordHistory h e) = lastN 3 h ++ [e] := by
  have key : lastN 4 (h ++ [e]) = lastN 3 h ++ [e] := by
    unfold lastN
    rw [List.length_append, List.length_singleton,
      show h.length + 1 - 4 = h.length - 3 from by omega,
      List.drop_append_of_le_length (by omega)]
  simp only [recordHistory]
  split
  · next hgt =>
      rw [← key]
      unfold lastN
      rw [List.length_drop, List.drop_drop]
      have harith : (h ++ [e]).length - MAX_HISTORY
          + ((h ++ [e]).length - ((h ++ [e]).length - MAX_HISTORY) - 4)
          = (h ++ [e]).length - 4 := by
        rw [List.length_append, List.length_singleton] at hgt ⊢
        unfold MAX_HISTORY at hgt ⊢
        omega
      rw [harith]
  · exact key

/-- `checkSequentialSkips` holds whenever the last four entries are PASS
and alternate between the two players, in either order. -/
theorem checkSequentialSkips_true (s2 : GameState) (p0 p1 a b : String)
    (hp : s2.players = [p0, p1])
    (hall : (lastN 4 s2.history).all HistoryEntry.isPass = true)
    (hids : (lastN 4 s2.history).map HistoryEntry.playerId = [a, b, a, b])
    (hab : (a = p0 ∧ b = p1) ∨ (a = p1 ∧ b = p0)) :
    checkSequentialSkips s2 = true := by
  unfold checkSequentialSkips
  have hlen : (lastN 4 s2.history).length = 4 := by
    have h2 := congrArg List.length hids
    simpa using h2
  simp only [hp, hlen, hall, hids]
  rcases hab with ⟨h1, h2⟩ | ⟨h1, h2⟩ <;> subst h1 <;> subst h2 <;> simp

/-- C4: in a two-player game, a `passTurn` whose appended entry makes the
last four history entries all PASS, strictly alternating between the two
players, succeeds with a `gameEnded` payload of reason `four_passes`
whose final scores are the post-call scores, and every player's final
score is their pre-call score minus the value of their own remaining
rack. -/
theorem four_pass_termination (s : GameState) (pid other p0 p1 : String)
    (hp : s.players = [p0, p1]) (hne : p0 ≠ p1)
    (hcur : s.currentPlayer = pid)
    (hwho : (pid = p0 ∧ other = p1) ∨ (pid = p1 ∧ other = p0))
    (hpass : (lastN 3 s.history).all HistoryEntry.isPass = true)
    (hids : (lastN 3 s.history).map HistoryEntry.playerId
      = [other, pid, other]) :
    (passTurn s pid).1.success = true
    ∧ (passTurn s pid).1.gameEnded
        = some ⟨.four_passes, (passTurn s pid).2.scores⟩
    ∧ ∀ p ∈ s.players,
        scoreOf (passTurn s pid).2 p = scoreOf s p - rackValue s p := by
  have hcur2 : ¬s.currentPlayer ≠ pid := by simp [hcur]
  have hlen3 : 3 ≤ s.history.length := by
    have hl := congrArg List.length hids
    simp [lastN] at hl
    omega
  have h4 := lastN_recordHistory s.history (.pass (s.moveNumber + 1) pid)
    hlen3
  set s1 : GameState :=
    { s with
      currentPlayer := nextPlayer s.players pid,
      moveNumber := s.moveNumber + 1,
      history := recordHistory s.history
        (HistoryEntry.pass (s.moveNumber + 1) pid) } with hs1
  have hskip : checkSequentialSkips s1 = true := by
    refine checkSequentialSkips_true s1 p0 p1 other pid hp ?_ ?_ ?_
    · show (lastN 4 (recordHistory s.history _)).all _ = true
      rw [h4]
      simp [hpass, HistoryEntry.isPass]
    · show (lastN 4 (recordHistory s.history _)).map _ = _
      rw [h4]
      simp [hids, HistoryEntry.playerId]
    · rcases hwho with ⟨h1, h2⟩ | ⟨h1, h2⟩
      · exact Or.inr ⟨h2, h1⟩
      · exact Or.inl ⟨h2, h1⟩
  simp only [passTurn, if_neg hcur2, ← hs1, hskip, if_true]
  refine ⟨by trivial, by trivial, ?_⟩
  intro p hmem
  rw [hp] at hmem
  simp only [List.mem_cons, List.not_mem_nil, or_false] at hmem
  have hraw : scoreOf (applyEndGameScoring s1) p
      = lookupD (setA (setA s.scores p0
          (lookupD s.scores p0 0 - rackValue s p0)) p1
          (lookupD (setA s.scores p0
            (lookupD s.scores p0 0 - rackValue s p0)) p1 0
            - rackValue s p1)) p 0 := by
    simp only [applyEndGameScoring, hs1, hp]
    rfl
  rcases hmem with h | h <;> subst h <;>
    rw [hraw] <;> simp [lookupD_setA, hne, Ne.symm hne, scoreOf]

/-- The four-pass witness state: players A and B, three alternating PASS
entries on the books, A to move. -/
def passState : GameState :=
  { board := createBoard, bag := [],
    racks := [("A", [⟨"x1", 'X', 8, false⟩]), ("B", [])],
    scores := [("A", 10), ("B", 20)], currentPlayer := "A",
    players := ["A", "B"], language := .en, moveNumber := 3,
    lastMove := none,
    history := [.pass 1 "B", .pass 2 "A", .pass 3 "B"], sessionId := "s" }

/-- Witness for C4: A's fourth pass on `passState` ends the game with
reason `four_passes` and rack-value score deductions. -/
theorem four_pass_termination_witness :
    (passTurn passState "A").1.success = true
    ∧ (passTurn passState "A").1.gameEnded
        = some ⟨.four_passes, (passTurn passState "A").2.scores⟩
    ∧ ∀ p ∈ passState.players,
        scoreOf (passTurn passState "A").2 p
          = scoreOf passState p - rackValue passState p :=
  four_pass_termination passState "A" "B" "A" "B" rfl (by decide) rfl
    (Or.inl ⟨rfl, rfl⟩) (by decide) (by decide)

/-- Witness for C2: a wrong-turn `placeMove`, `passTurn` and
`exchangeTiles` each leave `divState` untouched. -/
theorem rejected_action_leaves_state_unmodified_witness :
    ((placeMove divState "P2" divPlacement wcRAT noPremiums).2 = divState)
    ∧ ((passTurn divState "P2").2 = divState)
    ∧ ((exchangeTiles divState "P2" ["t1"] id id).2 = divState) :=
  ⟨(rejected_action_leaves_state_unmodified divState "P2" divPlacement
      wcRAT noPremiums ["t1"] id id).1 (by decide),
   (rejected_action_leaves_state_unmodified divState "P2" divPlacement
      wcRAT noPremiums ["t1"] id id).2.1 (by decide),
   (rejected_action_leaves_state_unmodified divState "P2" divPlacement
      wcRAT noPremiums ["t1"] id id).2.2 (by decide)⟩

end Scrabble







